import Mathlib

/-!
The PTP transaction engine of camlib.

A shallow embedding of `src/packet.c`, `src/lib.c`, `src/backend.c` and
`src/operations.c`, followed by theorems about it.

Conventions of the embedding

* The I/O buffer `r->data` is a `List Nat` of bytes; byte `i` of the buffer is
  element `i` of the list. Loads are little-endian, as on the hosts the
  library is built for. A load beyond the end of the list yields `0` and a
  store beyond the end is dropped; the C code has no defined behaviour there,
  so theorems that depend on such accesses carry a capacity hypothesis.
* Machine integers are `Nat`/`Int` with explicit reduction modulo `2^w` where
  a C assignment narrows a value.
* A pointer into the buffer is its byte offset.
* The transport (USB bulk endpoint or PTP/IP command socket) is external to
  the sources. It is modelled as a script: the list of results that the
  successive write calls and the successive read calls deliver.
-/

namespace Camlib

/-! ## Constants of the missing headers `ptp.h` and `camlib.h` -/

/-- Modelled from the spec: `PTP_PACKET_TYPE_COMMAND` of `ptp.h` (the header is
not among the sources); scenario S1 of the spec shows type bytes `01 00` for
a command container. -/
def PTP_PACKET_TYPE_COMMAND : Nat := 1

/-- Modelled from the spec: `PTP_PACKET_TYPE_DATA` of `ptp.h`; scenario S2 of
the spec gives `type=2` for a DATA container. -/
def PTP_PACKET_TYPE_DATA : Nat := 2

/-- Modelled from the spec: `PTP_PACKET_TYPE_RESPONSE` of `ptp.h`; scenarios
S1 and S2 of the spec give `type=3` for a RESPONSE container. -/
def PTP_PACKET_TYPE_RESPONSE : Nat := 3

/-- Modelled from the spec: `PTP_RC_OK` of `ptp.h`; the spec gives 0x2001. -/
def PTP_RC_OK : Nat := 0x2001

/-- Modelled from the spec: `PTP_OC_OpenSession` of `ptp.h`; the spec gives
0x1002. -/
def PTP_OC_OpenSession : Nat := 0x1002

/-- Modelled from the spec: the result code `PTP_OUT_OF_MEM` of `camlib.h`;
the spec names it without a value, the code only relies on it being
negative. -/
def PTP_OUT_OF_MEM : Int := -4

/-- Modelled from the spec: the result code `PTP_IO_ERR` of `camlib.h`; the
spec names it without a value, the code only relies on it being negative. -/
def PTP_IO_ERR : Int := -5

/-- Modelled from the spec: the result code `PTP_CHECK_CODE` of `camlib.h`;
the spec names it without a value, distinct from OK (0). -/
def PTP_CHECK_CODE : Int := -8

/-- Modelled from the spec: `PTPIP_COMMAND_RESPONSE` of `ptp.h`, the PTP/IP
packet type of a response. -/
def PTPIP_COMMAND_RESPONSE : Nat := 0x7

/-- Modelled from the spec: `PTPIP_EVENT` of `ptp.h`, the PTP/IP packet type
of an event. -/
def PTPIP_EVENT : Nat := 0x8

/-- Modelled from the spec: `PTPIP_DATA_PACKET_START` of `ptp.h`. -/
def PTPIP_DATA_PACKET_START : Nat := 0x9

/-- Modelled from the spec: `PTPIP_DATA_PACKET_END` of `ptp.h`. -/
def PTPIP_DATA_PACKET_END : Nat := 0xc

/-! ## Bytes in memory -/

/-- Load of one byte at offset `o`. -/
def rd8 (m : List Nat) (o : Nat) : Nat := m.getD o 0

/-- Little-endian load of a `uint16_t` at offset `o`. -/
def rd16 (m : List Nat) (o : Nat) : Nat := rd8 m o + 256 * rd8 m (o + 1)

/-- Little-endian load of a `uint32_t` at offset `o`. -/
def rd32 (m : List Nat) (o : Nat) : Nat := rd16 m o + 65536 * rd16 m (o + 2)

/-- Store of one byte at offset `o`; the value is narrowed to 8 bits. -/
def wr8 (m : List Nat) (o : Nat) (b : Nat) : List Nat := m.set o (b % 256)

/-- Little-endian object representation of a `uint16_t`. -/
def le16 (v : Nat) : List Nat := [v % 256, v / 256 % 256]

/-- Little-endian object representation of a `uint32_t`. -/
def le32 (v : Nat) : List Nat :=
  [v % 256, v / 256 % 256, v / 65536 % 256, v / 16777216 % 256]

/-- The byte copy `memcpy(dst + off, src, |src|)`. -/
def memcpy (dst : List Nat) (off : Nat) : List Nat → List Nat
  | [] => dst
  | b :: bs => memcpy (dst.set off b) (off + 1) bs

/-! ## Data model (`camlib.h`, `ptp.h`) -/

/-- The tag `r->connection_type`. -/
inductive ConnType where
  | PTP_USB
  | PTP_IP
  | PTP_IP_USB
  deriving DecidableEq, Repr

/-- A node `struct PtpPropAvail` of the property-avail list: the property code,
the element size, the element count and the owned bytes `data` (`[]` for a
NULL pointer). The links `prev` and `next` are the order of the list that
holds the node. -/
structure PtpPropAvail where
  code : Nat
  memb_size : Nat
  memb_cnt : Nat
  data : List Nat
  deriving DecidableEq, Repr

/-- The device descriptor `struct PtpDeviceInfo`, restricted to the fields the
embedded functions use: the `char` array `manufacturer` and the array of
supported operation codes with its length. -/
structure PtpDeviceInfo where
  manufacturer : List Nat
  ops_supported : List Nat
  ops_supported_length : Int
  deriving DecidableEq, Repr

/-- The engine state `struct PtpRuntime`, restricted to the fields the embedded
functions use. `mutex` is `none` for a NULL mutex and `some n` for a
recursive mutex that the calling thread holds `n` times. `avail` is the
property-avail list as it is walked from `r->avail` along the `prev` links:
its head is the node `r->avail` points to, and `[]` is the NULL pointer.
`di` is the pointer `r->di`, `none` for NULL. -/
structure PtpRuntime where
  data : List Nat
  data_length : Int
  transaction : Nat
  session : Nat
  connection_type : ConnType
  max_packet_size : Int
  data_phase_length : Int
  caller_unlocks_mutex : Bool
  mutex : Option Nat
  avail : List PtpPropAvail := []
  di : Option PtpDeviceInfo := none
  deriving DecidableEq, Repr

/-- The transaction descriptor `struct PtpCommand`. `params` stands for the
array `params[5]`; an element the caller did not set reads as `0`. -/
structure PtpCommand where
  code : Nat
  params : List Nat
  param_length : Nat
  data_length : Nat
  deriving DecidableEq, Repr

/-- The wire container `struct PtpBulkContainer`. -/
structure PtpBulkContainer where
  length : Nat
  type : Nat
  code : Nat
  transaction : Nat
  param1 : Nat
  param2 : Nat
  param3 : Nat
  param4 : Nat
  param5 : Nat
  deriving DecidableEq, Repr

/-- Object representation of a `struct PtpBulkContainer` (32 bytes); each
field is narrowed to its declared width. -/
def PtpBulkContainer.bytes (b : PtpBulkContainer) : List Nat :=
  le32 b.length ++ le16 b.type ++ le16 b.code ++ le32 b.transaction ++
  le32 b.param1 ++ le32 b.param2 ++ le32 b.param3 ++ le32 b.param4 ++ le32 b.param5

/-- The view `(struct PtpBulkContainer *)(data + off)`. -/
def bulkAt (data : List Nat) (off : Nat) : PtpBulkContainer :=
  { length := rd32 data off
    type := rd16 data (off + 4)
    code := rd16 data (off + 6)
    transaction := rd32 data (off + 8)
    param1 := rd32 data (off + 12)
    param2 := rd32 data (off + 16)
    param3 := rd32 data (off + 20)
    param4 := rd32 data (off + 24)
    param5 := rd32 data (off + 28) }

/-! ## `packet.c` -/

/-- Result of a container builder: the engine, the descriptor (the builders
write to `cmd`) and the returned length. -/
structure PacketResult where
  r : PtpRuntime
  cmd : PtpCommand
  ret : Int
  deriving DecidableEq, Repr

/-- Function `ptp_bulk_packet` of `packet.c`. The local `bulk` has 32 bytes; for
`param_length ≤ 5` the copy of `size` bytes stays inside it. -/
def ptp_bulk_packet (r : PtpRuntime) (cmd : PtpCommand) (type : Nat) : PacketResult :=
  let size : Nat := 12 + 4 * cmd.param_length
  let bulk : PtpBulkContainer :=
    { type := type
      length := size + cmd.data_length
      code := cmd.code
      transaction := r.transaction
      param1 := cmd.params.getD 0 0
      param2 := cmd.params.getD 1 0
      param3 := cmd.params.getD 2 0
      param4 := cmd.params.getD 3 0
      param5 := cmd.params.getD 4 0 }
  let r1 := { r with data := memcpy r.data 0 (bulk.bytes.take size) }
  let r2 := { r1 with transaction := (r1.transaction + 1) % 2 ^ 32 }
  { r := r2, cmd := cmd, ret := size }

/-- Function `ptp_new_data_packet` of `packet.c`. -/
def ptp_new_data_packet (r : PtpRuntime) (cmd : PtpCommand) : PacketResult :=
  ptp_bulk_packet r cmd PTP_PACKET_TYPE_DATA

/-- Function `ptp_new_cmd_packet` of `packet.c`. -/
def ptp_new_cmd_packet (r : PtpRuntime) (cmd : PtpCommand) : PacketResult :=
  let cmd1 := { cmd with data_length := 0 }
  ptp_bulk_packet r cmd1 PTP_PACKET_TYPE_COMMAND

/-- Function `ptp_get_return_code` of `packet.c`. -/
def ptp_get_return_code (r : PtpRuntime) : Int :=
  let bulk := bulkAt r.data 0
  if bulk.type = PTP_PACKET_TYPE_DATA then
    let bulk2 := bulkAt r.data bulk.length
    (bulk2.code : Int)
  else
    (bulk.code : Int)

/-- Function `ptp_get_payload` of `packet.c`; `none` is the NULL pointer, `some o` the
pointer `r->data + o`. -/
def ptp_get_payload (r : PtpRuntime) : Option Nat :=
  let bulk := bulkAt r.data 0
  if bulk.type = PTP_PACKET_TYPE_RESPONSE then none else some 12

/-- Function `ptp_get_param` of `packet.c`. -/
def ptp_get_param (r : PtpRuntime) (index : Int) : Nat :=
  let bulk := bulkAt r.data 0
  match index with
  | 0 => bulk.param1
  | 1 => bulk.param2
  | 2 => bulk.param3
  | 3 => bulk.param4
  | 4 => bulk.param5
  | _ => 0

/-- The length `strlen(string)` of a C string held in a `char` array. -/
def strlen (string : List Nat) : Nat := (string.takeWhile (fun c => c != 0)).length

/-- The narrow string a `char` array holds: its bytes before the first NUL. -/
def cstr (string : List Nat) : List Nat := string.takeWhile (fun c => c != 0)

/-- Function `ptp_read_uint8` of `packet.c`: the value read and the advanced cursor. -/
def ptp_read_uint8 (m : List Nat) (dat : Nat) : Nat × Nat := (rd8 m dat, dat + 1)

/-- Function `ptp_write_uint8` of `packet.c`: the memory and the advanced cursor. -/
def ptp_write_uint8 (m : List Nat) (dat : Nat) (b : Nat) : List Nat × Nat :=
  (wr8 m dat b, dat + 1)

/-- The `while (y < length)` loop of `ptp_read_string`; the first argument is
`length - y`, the number of iterations left when no `break` is taken. The
result is the cursor, `y` and the `char` array. -/
def ptp_read_string_loop (m : List Nat) (max : Int) :
    Nat → Nat → Nat → List Nat → Nat × Nat × List Nat
  | 0, dat, y, string => (dat, y, string)
  | n + 1, dat, y, string =>
    let string1 := wr8 string y (rd8 m dat)
    let dat1 := dat + 2
    let y1 := y + 1
    if (y1 : Int) ≥ max then (dat1, y1, string1)
    else ptp_read_string_loop m max n dat1 y1 string1

/-- Function `ptp_read_string` of `packet.c`: the advanced cursor and the `char` array
`string` after the call. -/
def ptp_read_string (m : List Nat) (dat : Nat) (string : List Nat) (max : Int) :
    Nat × List Nat :=
  let length := (ptp_read_uint8 m dat).1
  let dat1 := (ptp_read_uint8 m dat).2
  let out := ptp_read_string_loop m max length dat1 0 string
  (out.1, wr8 out.2.2 out.2.1 0)

/-- The `for` loop of `ptp_write_string`; the first argument is `length - i`. -/
def ptp_write_string_loop (string : List Nat) : Nat → Nat → List Nat → Nat → List Nat × Nat
  | 0, _, m, dat => (m, dat)
  | n + 1, i, m, dat =>
    let w := ptp_write_uint8 m dat (string.getD i 0)
    ptp_write_string_loop string n (i + 1) w.1 (w.2 + 2)

/-- Function `ptp_write_string` of `packet.c`: the memory and the advanced cursor. -/
def ptp_write_string (m : List Nat) (dat : Nat) (string : List Nat) : List Nat × Nat :=
  let length := strlen string
  let w := ptp_write_uint8 m dat length
  ptp_write_string_loop string length 0 w.1 w.2

/-! ## The transport driver (external to the sources) -/

/-- One scripted result of a transport read: a failure, returning the negative
value `-(e+1)`, or a packet of bytes. -/
inductive ReadEvent where
  | fail (e : Nat)
  | packet (bytes : List Nat)
  deriving DecidableEq, Repr

/-- Record of one write call: the offset and size offered, the bytes at that
span of the buffer, and the value the driver returned. -/
structure WriteCall where
  off : Nat
  size : Int
  offered : List Nat
  ret : Int
  deriving DecidableEq, Repr

/-- Record of one read call: the target offset, the size asked for and the
value the driver returned. -/
structure ReadCall where
  off : Nat
  size : Int
  ret : Int
  deriving DecidableEq, Repr

/-- The transport: the results the next write calls and the next read calls
will deliver, and the record of the calls made so far. A driver whose script
is used up fails (returns `-1`). -/
structure Transport where
  writes : List Int
  reads : List ReadEvent
  wlog : List WriteCall
  rlog : List ReadCall
  deriving DecidableEq, Repr

/-- The bytes a write call handed to the wire. -/
def WriteCall.accepted (c : WriteCall) : List Nat := c.offered.take c.ret.toNat

/-- Result of a driver write. -/
structure WriteResult where
  tr : Transport
  ret : Int
  deriving DecidableEq, Repr

/-- Result of a driver read: the transport, the buffer and the returned value. -/
structure ReadResult where
  tr : Transport
  data : List Nat
  ret : Int
  deriving DecidableEq, Repr

/-- Modelled from the spec: the driver `bulk_write(bytes) -> int` ("returns
bytes written or negative"), `ptp_send_bulk_packet(to, length)` in the code;
the platform back ends are not among the sources. The call is
`ptp_send_bulk_packet(data + off, length)`. -/
def ptp_send_bulk_packet (tr : Transport) (data : List Nat) (off : Nat) (length : Int) :
    WriteResult :=
  let x := tr.writes.headD (-1)
  { tr := { tr with
      writes := tr.writes.tail
      wlog := tr.wlog ++
        [{ off := off, size := length, offered := (data.drop off).take length.toNat, ret := x }] }
    ret := x }

/-- Modelled from the spec: the driver `ip_cmd_write` ("same contract for the
command socket"), `ptpip_cmd_write(r, to, length)` in the code. -/
def ptpip_cmd_write (tr : Transport) (data : List Nat) (off : Nat) (length : Int) :
    WriteResult :=
  ptp_send_bulk_packet tr data off length

/-- Modelled from the spec: the driver `bulk_read(into, max) -> int` ("returns
bytes read or negative; short reads legal"), `ptp_recieve_bulk_packet(to,
length)` in the code. The call is `ptp_recieve_bulk_packet(data + off, length)`. -/
def ptp_recieve_bulk_packet (tr : Transport) (data : List Nat) (off : Nat) (length : Int) :
    ReadResult :=
  match tr.reads with
  | [] =>
    { tr := { tr with rlog := tr.rlog ++ [{ off := off, size := length, ret := -1 }] }
      data := data
      ret := -1 }
  | ReadEvent.fail e :: rest =>
    { tr := { tr with
        reads := rest
        rlog := tr.rlog ++ [{ off := off, size := length, ret := Int.negSucc e }] }
      data := data
      ret := Int.negSucc e }
  | ReadEvent.packet bytes :: rest =>
    { tr := { tr with
        reads := rest
        rlog := tr.rlog ++ [{ off := off, size := length, ret := bytes.length }] }
      data := memcpy data off bytes
      ret := bytes.length }

/-- Modelled from the spec: the driver `ip_cmd_read` ("same contract for the
command socket"), `ptpip_cmd_read(r, to, length)` in the code. -/
def ptpip_cmd_read (tr : Transport) (data : List Nat) (off : Nat) (length : Int) :
    ReadResult :=
  ptp_recieve_bulk_packet tr data off length

/-! ## `backend.c` -/

/-- Conversion of a value to `int` (32 bits, two's complement). -/
def toInt32 (x : Int) : Int := (x + 2147483648) % 4294967296 - 2147483648

/-- Result of a receive routine. -/
structure IoResult where
  r : PtpRuntime
  tr : Transport
  ret : Int
  deriving DecidableEq, Repr

/-- The transport write `x = ...(r->data + sent, length)` that
`ptp_send_bulk_packets` issues, by connection type. -/
def ptp_send_write (r : PtpRuntime) (tr : Transport) (sent : Int) (length : Int) : WriteResult :=
  match r.connection_type with
  | ConnType.PTP_USB => ptp_send_bulk_packet tr r.data sent.toNat length
  | _ => ptpip_cmd_write tr r.data sent.toNat length

/-- The `while (1)` loop of `ptp_send_bulk_packets`, with the loop variable
`sent`. The first argument bounds the number of iterations; every iteration
makes one write call, so `tr.writes.length + 1` iterations are never
exceeded. -/
def ptp_send_bulk_packets_loop (r : PtpRuntime) (length : Int) :
    Nat → Transport → Int → WriteResult
  | 0, tr, _ => { tr := tr, ret := PTP_IO_ERR }
  | n + 1, tr, sent =>
    let w := ptp_send_write r tr sent length
    if w.ret < 0 then { tr := w.tr, ret := PTP_IO_ERR }
    else
      let sent1 := sent + w.ret
      if sent1 ≥ length then { tr := w.tr, ret := sent1 }
      else ptp_send_bulk_packets_loop r length n w.tr sent1

/-- Function `ptp_send_bulk_packets` of `backend.c`. -/
def ptp_send_bulk_packets (r : PtpRuntime) (tr : Transport) (length : Int) : WriteResult :=
  ptp_send_bulk_packets_loop r length (tr.writes.length + 1) tr 0

/-- The `while (1)` loop of `ptpip_read_packet`, with the loop variable `read`.
The first argument bounds the number of iterations; every iteration makes
one read call. -/
def ptpip_read_packet_loop (ofs : Nat) : Nat → PtpRuntime → Transport → Int → IoResult
  | 0, r, tr, _ => { r := r, tr := tr, ret := PTP_IO_ERR }
  | n + 1, r, tr, read =>
    let a := ptpip_cmd_read tr r.data (ofs + read.toNat)
      (toInt32 (((rd32 r.data ofs : Nat) : Int) - read))
    let r1 := { r with data := a.data }
    if a.ret < 0 then { r := r1, tr := a.tr, ret := PTP_IO_ERR }
    else
      let read1 := read + a.ret
      if (((rd32 r1.data ofs : Nat) : Int) - read1) % 4294967296 = 0 then
        { r := r1, tr := a.tr, ret := read1 }
      else ptpip_read_packet_loop ofs n r1 a.tr read1

/-- Function `ptpip_read_packet` of `backend.c`; `ofs` is the argument `of`. -/
def ptpip_read_packet (r : PtpRuntime) (tr : Transport) (ofs : Nat) : IoResult :=
  let a := ptpip_cmd_read tr r.data ofs 8
  let r1 := { r with data := a.data }
  if a.ret ≠ 8 then { r := r1, tr := a.tr, ret := PTP_IO_ERR }
  else ptpip_read_packet_loop ofs (a.tr.reads.length + 1) r1 a.tr a.ret

/-- Function `ptpip_recieve_bulk_packets` of `backend.c`. -/
def ptpip_recieve_bulk_packets (r : PtpRuntime) (tr : Transport) : IoResult :=
  let p1 := ptpip_read_packet r tr 0
  if p1.ret < 0 then p1
  else
    let pk1_of := p1.ret.toNat
    if rd32 p1.r.data 4 = PTPIP_DATA_PACKET_START then
      let p2 := ptpip_read_packet p1.r p1.tr pk1_of
      if rd32 p2.r.data (pk1_of + 4) ≠ PTPIP_DATA_PACKET_END then
        { r := p2.r, tr := p2.tr, ret := PTP_IO_ERR }
      else
        let pk2_of := (toInt32 ((pk1_of + rd32 p2.r.data pk1_of : Nat) : Int)).toNat
        let p3 := ptpip_read_packet p2.r p2.tr pk2_of
        if rd32 p3.r.data (pk2_of + 4) ≠ PTPIP_COMMAND_RESPONSE then
          { r := p3.r, tr := p3.tr, ret := PTP_IO_ERR }
        else { r := p3.r, tr := p3.tr, ret := 0 }
    else if rd32 p1.r.data 4 = PTPIP_COMMAND_RESPONSE then
      { r := p1.r, tr := p1.tr, ret := 0 }
    else { r := p1.r, tr := p1.tr, ret := PTP_IO_ERR }

/-- The transport read `x = ...(r->data + read, r->max_packet_size)` that
`ptpusb_recieve_bulk_packets` issues, by connection type. -/
def ptpusb_read (r : PtpRuntime) (tr : Transport) (read : Int) : ReadResult :=
  match r.connection_type with
  | ConnType.PTP_USB => ptp_recieve_bulk_packet tr r.data read.toNat r.max_packet_size
  | _ => ptpip_cmd_read tr r.data read.toNat r.max_packet_size

/-- The `while (1)` loop of `ptpusb_recieve_bulk_packets`, with the loop
variable `read`. The first argument bounds the number of iterations; every
iteration makes at least one read call. -/
def ptpusb_recieve_bulk_packets_loop : Nat → PtpRuntime → Transport → Int → IoResult
  | 0, r, tr, _ => { r := r, tr := tr, ret := PTP_IO_ERR }
  | n + 1, r, tr, read =>
    let a := ptpusb_read r tr read
    let r1 := { r with data := a.data }
    if r.connection_type ≠ ConnType.PTP_USB ∧ a.ret > 0 ∧ read = 0 ∧
        rd32 r1.data 0 = PTPIP_EVENT then
      { r := r1, tr := a.tr, ret := PTP_IO_ERR }
    else
      let b := if a.ret < 0 ∧ read = 0 then ptpusb_read r1 a.tr read else a
      let r2 := { r1 with data := b.data }
      if b.ret < 0 then { r := r2, tr := b.tr, ret := PTP_IO_ERR }
      else
        let read1 := read + b.ret
        if read1 ≥ r.data_length - r.max_packet_size then
          { r := r2, tr := b.tr, ret := PTP_OUT_OF_MEM }
        else if b.ret ≠ r.max_packet_size then
          if (bulkAt r2.data 0).type = PTP_PACKET_TYPE_DATA then
            let c := ptpusb_read r2 b.tr read1
            { r := { r2 with data := c.data }, tr := c.tr, ret := read1 }
          else { r := r2, tr := b.tr, ret := read1 }
        else ptpusb_recieve_bulk_packets_loop n r2 b.tr read1

/-- Function `ptpusb_recieve_bulk_packets` of `backend.c`. -/
def ptpusb_recieve_bulk_packets (r : PtpRuntime) (tr : Transport) : IoResult :=
  ptpusb_recieve_bulk_packets_loop (tr.reads.length + 1) r tr 0

/-- Function `ptp_recieve_bulk_packets` of `backend.c`. -/
def ptp_recieve_bulk_packets (r : PtpRuntime) (tr : Transport) : IoResult :=
  if r.connection_type = ConnType.PTP_IP then ptpip_recieve_bulk_packets r tr
  else ptpusb_recieve_bulk_packets r tr

/-! ## `lib.c` -/

/-- Function `ptp_mutex_lock` of `lib.c`; the mutex is recursive, a lock by the holder
adds one to the hold count. -/
def ptp_mutex_lock (r : PtpRuntime) : PtpRuntime :=
  match r.mutex with
  | none => r
  | some n => { r with mutex := some (n + 1) }

/-- Function `ptp_mutex_unlock` of `lib.c`; an unlock takes one from the hold count. -/
def ptp_mutex_unlock (r : PtpRuntime) : PtpRuntime :=
  match r.mutex with
  | none => r
  | some n => { r with mutex := some (n - 1) }

/-- The allocator call `realloc(data, size)`, taken to succeed; the bytes
beyond the old size are indeterminate in C and read as `0` here. -/
def realloc (data : List Nat) (size : Nat) : List Nat :=
  data.take size ++ List.replicate (size - data.length) 0

/-- Function `ptp_buffer_resize` of `lib.c`: the engine and the returned value. -/
def ptp_buffer_resize (r : PtpRuntime) (size : Nat) : PtpRuntime × Int :=
  let extra : Nat := 100
  ({ r with data := realloc r.data (size + extra), data_length := ((size + extra : Nat) : Int) }, 0)

/-- Result of a transaction: the engine, the transport, the descriptor and the
returned value. -/
structure TxResult where
  r : PtpRuntime
  tr : Transport
  cmd : PtpCommand
  ret : Int
  deriving DecidableEq, Repr

/-- Function `ptp_send` of `lib.c`. The receive routine it calls,
`ptp_receive_bulk_packets`, is `ptp_recieve_bulk_packets` of `backend.c`. -/
def ptp_send (r : PtpRuntime) (tr : Transport) (cmd : PtpCommand) : TxResult :=
  let r1 := ptp_mutex_lock r
  let r2 := { r1 with data_phase_length := 0 }
  let p := ptp_new_cmd_packet r2 cmd
  let length := p.ret
  let w := ptp_send_bulk_packets p.r tr length
  if w.ret ≠ length then
    { r := ptp_mutex_unlock p.r, tr := w.tr, cmd := p.cmd, ret := PTP_IO_ERR }
  else
    let v := ptp_recieve_bulk_packets p.r w.tr
    if v.ret < 0 then
      { r := ptp_mutex_unlock v.r, tr := v.tr, cmd := p.cmd, ret := PTP_IO_ERR }
    else
      let r3 := { v.r with transaction := (v.r.transaction + 1) % 2 ^ 32 }
      if ptp_get_return_code r3 = (PTP_RC_OK : Int) then
        { r := if !r3.caller_unlocks_mutex then ptp_mutex_unlock r3 else r3
          tr := v.tr, cmd := p.cmd, ret := 0 }
      else
        { r := if !r3.caller_unlocks_mutex then ptp_mutex_unlock r3 else r3
          tr := v.tr, cmd := p.cmd, ret := PTP_CHECK_CODE }

/-- Modelled from the spec: `ptpip_data_start_packet` is not among the sources.
The spec: "data-start packet (12-byte header carrying the total payload
length for the following data-end)"; a PTP/IP packet starts with
`length:u32, type:u32`. -/
def ptpip_data_start_packet (r : PtpRuntime) (data_length : Int) : PtpRuntime × Int :=
  let pkt := le32 12 ++ le32 PTPIP_DATA_PACKET_START ++ le32 data_length.toNat
  ({ r with data := memcpy r.data 0 pkt }, 12)

/-- Modelled from the spec: `ptpip_data_end_packet` is not among the sources.
The spec: "data-end packet (header + payload)"; a PTP/IP packet starts with
`length:u32, type:u32`. -/
def ptpip_data_end_packet (r : PtpRuntime) (data : List Nat) (data_length : Int) :
    PtpRuntime × Int :=
  let pkt := le32 (8 + data_length.toNat) ++ le32 PTPIP_DATA_PACKET_END ++
    data.take data_length.toNat
  ({ r with data := memcpy r.data 0 pkt }, 8 + data_length)

/-- Function `ptp_send_data` of `lib.c`. The call `ptp_new_data_packet(r, cmd, data,
length)` reaches the function of `packet.c`, whose parameters are `r` and
`cmd` only. -/
def ptp_send_data (r : PtpRuntime) (tr : Transport) (cmd : PtpCommand) (data : List Nat)
    (length : Int) : TxResult :=
  let r1 := ptp_mutex_lock r
  let r2 := { r1 with data_phase_length := length }
  let r3 := if length + 50 > r2.data_length then (ptp_buffer_resize r2 (100 + length).toNat).1
    else r2
  let p := ptp_new_cmd_packet r3 cmd
  let w := ptp_send_bulk_packets p.r tr p.ret
  if w.ret ≠ p.ret then
    { r := ptp_mutex_unlock p.r, tr := w.tr, cmd := p.cmd, ret := PTP_IO_ERR }
  else if p.r.connection_type = ConnType.PTP_IP then
    let s := ptpip_data_start_packet p.r length
    let ws := ptp_send_bulk_packets s.1 w.tr s.2
    if ws.ret ≠ s.2 then
      { r := ptp_mutex_unlock s.1, tr := ws.tr, cmd := p.cmd, ret := PTP_IO_ERR }
    else
      let e := ptpip_data_end_packet s.1 data length
      let we := ptp_send_bulk_packets e.1 ws.tr e.2
      if we.ret ≠ e.2 then
        { r := ptp_mutex_unlock e.1, tr := we.tr, cmd := p.cmd, ret := PTP_IO_ERR }
      else
        let v := ptp_recieve_bulk_packets e.1 we.tr
        if v.ret < 0 then
          { r := ptp_mutex_unlock v.r, tr := v.tr, cmd := p.cmd, ret := PTP_IO_ERR }
        else
          let r4 := { v.r with transaction := (v.r.transaction + 1) % 2 ^ 32 }
          if ptp_get_return_code r4 = (PTP_RC_OK : Int) then
            { r := if !r4.caller_unlocks_mutex then ptp_mutex_unlock r4 else r4
              tr := v.tr, cmd := p.cmd, ret := 0 }
          else
            { r := if !r4.caller_unlocks_mutex then ptp_mutex_unlock r4 else r4
              tr := v.tr, cmd := p.cmd, ret := PTP_CHECK_CODE }
  else
    let d := ptp_new_data_packet p.r p.cmd
    let wd := ptp_send_bulk_packets d.r w.tr d.ret
    if wd.ret ≠ d.ret then
      { r := ptp_mutex_unlock d.r, tr := wd.tr, cmd := d.cmd, ret := PTP_IO_ERR }
    else
      let v := ptp_recieve_bulk_packets d.r wd.tr
      if v.ret < 0 then
        { r := ptp_mutex_unlock v.r, tr := v.tr, cmd := d.cmd, ret := PTP_IO_ERR }
      else
        let r4 := { v.r with transaction := (v.r.transaction + 1) % 2 ^ 32 }
        if ptp_get_return_code r4 = (PTP_RC_OK : Int) then
          { r := if !r4.caller_unlocks_mutex then ptp_mutex_unlock r4 else r4
            tr := v.tr, cmd := d.cmd, ret := 0 }
        else
          { r := if !r4.caller_unlocks_mutex then ptp_mutex_unlock r4 else r4
            tr := v.tr, cmd := d.cmd, ret := PTP_CHECK_CODE }

/-! ## `operations.c` -/

/-- Function `ptp_open_session` of `operations.c`; only `params[0]` of the descriptor
is set. -/
def ptp_open_session (r : PtpRuntime) (tr : Transport) : TxResult :=
  let r1 := { r with session := r.session + 1 }
  let cmd : PtpCommand :=
    { code := PTP_OC_OpenSession, params := [r1.session], param_length := 1, data_length := 0 }
  let r2 := { r1 with transaction := 0 }
  ptp_send r2 tr cmd

/-! ## Sequences of transactions and concrete scenarios -/

/-- The calls `ptp_send(r, &c)` for the descriptors `c` of a list, in order,
on one engine and one transport: the final engine, the final transport and
the values the calls returned. -/
def ptp_send_seq : List PtpCommand → PtpRuntime → Transport → PtpRuntime × Transport × List Int
  | [], r, tr => (r, tr, [])
  | c :: cs, r, tr =>
    let o := ptp_send r tr c
    let rest := ptp_send_seq cs o.r o.tr
    (rest.1, rest.2.1, o.ret :: rest.2.2)

/-- The command container `ptp_send` builds: the result of its call of
`ptp_new_cmd_packet`. -/
def ptp_send_cmd (r : PtpRuntime) (cmd : PtpCommand) : PacketResult :=
  ptp_new_cmd_packet { ptp_mutex_lock r with data_phase_length := 0 } cmd

/-- The result of the call of `ptp_send_bulk_packets` in `ptp_send`. -/
def ptp_send_written (r : PtpRuntime) (tr : Transport) (cmd : PtpCommand) : WriteResult :=
  ptp_send_bulk_packets (ptp_send_cmd r cmd).r tr (ptp_send_cmd r cmd).ret

/-- The result of the receive phase of `ptp_send`, reached when the command
container was written in full. -/
def ptp_send_received (r : PtpRuntime) (tr : Transport) (cmd : PtpCommand) : IoResult :=
  ptp_recieve_bulk_packets (ptp_send_cmd r cmd).r (ptp_send_written r tr cmd).tr

/-- An engine on USB with a zeroed buffer of 64 bytes, packets of 16 bytes, no
session, and a mutex nobody holds; `t` is the transaction counter. -/
def usbEngine (t : Nat) : PtpRuntime :=
  { data := List.replicate 64 0
    data_length := 64
    transaction := t
    session := 0
    connection_type := ConnType.PTP_USB
    max_packet_size := 16
    data_phase_length := 0
    caller_unlocks_mutex := false
    mutex := some 0 }

/-- The response container of scenario S1 of the spec: length 12, type
RESPONSE, code 0x2001, transaction 0. -/
def okResponse : List Nat := [0x0C, 0, 0, 0, 3, 0, 0x01, 0x20, 0, 0, 0, 0]

/-- A response container with the code 0x2019 (device busy). -/
def busyResponse : List Nat := [0x0C, 0, 0, 0, 3, 0, 0x19, 0x20, 0, 0, 0, 0]

/-- A transport that takes the containers offered to it whole (the sizes are
given) and answers with the given packets. -/
def scriptedTransport (sizes : List Int) (packets : List (List Nat)) : Transport :=
  { writes := sizes, reads := packets.map ReadEvent.packet, wlog := [], rlog := [] }

/-- The descriptor of scenario S3 of the spec: SetDevicePropValue (0x1016) of
the property 0xD000. -/
def setPropCmd : PtpCommand :=
  { code := 0x1016, params := [0xD000], param_length := 1, data_length := 0 }

/-- The descriptor of scenario S2 of the spec: GetDeviceInfo (0x1001), no
parameters. -/
def getInfoCmd : PtpCommand :=
  { code := 0x1001, params := [], param_length := 0, data_length := 0 }

/-- Engine states that differ at most in the contents of the buffer. -/
def SameButData (a b : PtpRuntime) : Prop := b = { a with data := b.data }

/-- A buffer that holds a DATA container (length 16, code 0x1001, transaction
5, payload `AA BB CC DD`) followed at offset 16 by a RESPONSE container
(length 16, code 0x2001, transaction 5, first parameter 7). -/
def dataThenResponse : List Nat :=
  [16, 0, 0, 0, 2, 0, 0x01, 0x10, 5, 0, 0, 0, 0xAA, 0xBB, 0xCC, 0xDD,
   16, 0, 0, 0, 3, 0, 0x01, 0x20, 5, 0, 0, 0, 7, 0, 0, 0] ++ List.replicate 32 0

/-- A buffer that holds a lone RESPONSE container (length 16, code 0x2001,
transaction 5, first parameter 7). -/
def loneResponse : List Nat :=
  [16, 0, 0, 0, 3, 0, 0x01, 0x20, 5, 0, 0, 0, 7, 0, 0, 0] ++ List.replicate 48 0

/-! ## `packet.c`: scalar and array readers -/

/-- Function `ptp_read_uint16` of `packet.c`: the value read and the advanced
cursor. -/
def ptp_read_uint16 (m : List Nat) (dat : Nat) : Nat × Nat := (rd16 m dat, dat + 2)

/-- Function `ptp_read_uint32` of `packet.c`: the value returned and the
advanced cursor. The function loads a `uint32_t` and its return type is
`uint16_t`, so the value is narrowed to 16 bits on return. -/
def ptp_read_uint32 (m : List Nat) (dat : Nat) : Nat × Nat := (rd32 m dat % 65536, dat + 4)

/-- The `for` loop of `ptp_read_uint16_array`; the first argument is `n - i`.
The result is the cursor and the array `buf`. -/
def ptp_read_uint16_array_loop (m : List Nat) (max : Int) :
    Nat → Nat → Nat → List Nat → Nat × List Nat
  | 0, _, dat, buf => (dat, buf)
  | k + 1, i, dat, buf =>
    if (i : Int) ≥ max then ptp_read_uint16_array_loop m max k (i + 1) dat (buf.set i 0)
    else
      ptp_read_uint16_array_loop m max k (i + 1) (ptp_read_uint16 m dat).2
        (buf.set i (ptp_read_uint16 m dat).1)

/-- Function `ptp_read_uint16_array` of `packet.c`: the advanced cursor, the
array `buf` after the call and the returned value. -/
def ptp_read_uint16_array (m : List Nat) (dat : Nat) (buf : List Nat) (max : Int) :
    Nat × List Nat × Int :=
  let n := (ptp_read_uint32 m dat).1
  let dat1 := (ptp_read_uint32 m dat).2
  if n > 0xff then (dat1, buf, -1)
  else
    let out := ptp_read_uint16_array_loop m max n 0 dat1 buf
    (out.1, out.2, (n : Int))

/-- An array field: the count 3, then the 16-bit elements 0x2211, 0x4433 and
0x6655. -/
def countedArray : List Nat := [3, 0, 0, 0, 0x11, 0x22, 0x33, 0x44, 0x55, 0x66]

/-- The engine `r` with the buffer contents `d`. -/
def setData (r : PtpRuntime) (d : List Nat) : PtpRuntime := { r with data := d }

/-- An engine on USB with a zeroed buffer of 24 bytes and packets of 4 bytes. -/
def smallEngine : PtpRuntime :=
  { data := List.replicate 24 0
    data_length := 24
    transaction := 0
    session := 1
    connection_type := ConnType.PTP_USB
    max_packet_size := 4
    data_phase_length := 0
    caller_unlocks_mutex := false
    mutex := some 0 }

/-- The reads by which a PTP/IP transport delivers the packet `P` to
`ptpip_read_packet`: the 8 bytes of the header, then the rest of the packet. -/
def ptpipScript (P : List Nat) : List ReadEvent :=
  [ReadEvent.packet (P.take 8), ReadEvent.packet (P.drop 8)]

/-- An engine on PTP/IP with a zeroed buffer of 64 bytes. -/
def ipEngine : PtpRuntime := { usbEngine 0 with connection_type := ConnType.PTP_IP }

/-- A PTP/IP DATA_START packet of 12 bytes. -/
def ipStart : List Nat := [12, 0, 0, 0, 9, 0, 0, 0, 4, 0, 0, 0]

/-- A PTP/IP DATA_END packet of 12 bytes with the payload `01 02 03 04`. -/
def ipEnd : List Nat := [12, 0, 0, 0, 0x0c, 0, 0, 0, 1, 2, 3, 4]

/-- A PTP/IP RESPONSE packet of 14 bytes with the code 0x2001. -/
def ipResponse : List Nat := [14, 0, 0, 0, 7, 0, 0, 0, 0x01, 0x20, 0, 0, 0, 0]

/-- The script `reads` delivers the PTP/IP packet `P` to one call of
`ptpip_read_packet` and goes on with `rest`. The packet is well formed: it
has the 8 bytes of the header and its length field, of 32 bits, is its
length. The first read delivers the 8 bytes of the header; the reads after it
deliver the rest of the packet in the chunks `cs` and then `c`, of any sizes.
The last chunk `c` is empty only when it is the only one: a packet of 8
bytes is completed by a read of no bytes, and in every other case the read
that completes the packet delivers at least one byte. -/
def Delivers (reads : List ReadEvent) (P : List Nat) (rest : List ReadEvent) : Prop :=
  8 ≤ P.length ∧ rd32 P 0 = P.length ∧ P.length < 4294967296 ∧
  ∃ (cs : List (List Nat)) (c : List Nat), (c ≠ [] ∨ cs = []) ∧
    cs.flatten ++ c = P.drop 8 ∧
    reads = ReadEvent.packet (P.take 8) ::
      (cs.map ReadEvent.packet ++ ReadEvent.packet c :: rest)

/-- A PTP/IP transport that delivers `ipStart`, `ipEnd` and `ipResponse`, the
bodies of the first and the last in two chunks each. -/
def chunkedTransport : Transport :=
  scriptedTransport []
    [ipStart.take 8, [4, 0], [0, 0], ipEnd.take 8, ipEnd.drop 8,
     ipResponse.take 8, [0x01, 0x20, 0], [0, 0, 0]]

/-- A PTP/IP transport that delivers the packet `ipResponse` and nothing else. -/
def responseOnlyTransport : Transport :=
  scriptedTransport [] [ipResponse.take 8, ipResponse.drop 8]

/-! ## `lib.c`: lifecycle, property-avail list, device type -/

/-- Function `ptp_reset` of `lib.c`, on the fields of the engine that are
embedded. -/
def ptp_reset (r : PtpRuntime) : PtpRuntime :=
  { r with
    transaction := 0
    session := 0
    connection_type := ConnType.PTP_USB
    caller_unlocks_mutex := false }

/-- Function `ptp_init` of `lib.c`. The engine is cleared, reset, and given a
buffer of `size` bytes (`CAMLIB_DEFAULT_SIZE` of the missing header
`camlib.h`), one zeroed node in the property-avail list and a recursive
mutex; `mutex_ok` tells whether `pthread_mutex_init` succeeded. -/
def ptp_init (size : Nat) (mutex_ok : Bool) : PtpRuntime :=
  let zeroed : PtpRuntime :=
    { data := [], data_length := 0, transaction := 0, session := 0
      connection_type := ConnType.PTP_USB, max_packet_size := 0, data_phase_length := 0
      caller_unlocks_mutex := false, mutex := none, avail := [], di := none }
  let r1 := ptp_reset zeroed
  let r2 := { r1 with data := List.replicate size 0, data_length := (size : Int) }
  let r3 := { r2 with avail := [{ code := 0, memb_size := 0, memb_cnt := 0, data := [] }] }
  { r3 with mutex := if mutex_ok then some 0 else none }

/-- The search loop of `ptp_set_prop_avail_info` followed by the update of the
node it finds: the list is walked from `r->avail` along `prev`; at the first
node with the code `code` the allocation is grown if `cnt > n->memb_cnt` and
the first `memb_size * cnt` bytes of `data` are copied into it. The result is
`none` when no node has the code. -/
def prop_avail_update (code memb_size cnt : Nat) (data : List Nat) :
    List PtpPropAvail → Option (List PtpPropAvail)
  | [] => none
  | n :: rest =>
    if n.code = code then
      let d1 := if cnt > n.memb_cnt then realloc n.data (memb_size * cnt) else n.data
      some ({ n with data := memcpy d1 0 (data.take (memb_size * cnt)) } :: rest)
    else (prop_avail_update code memb_size cnt data rest).map (fun l => n :: l)

/-- Function `ptp_set_prop_avail_info` of `lib.c`. The result is `none` when the
code dereferences the NULL pointer `r->avail`. -/
def ptp_set_prop_avail_info (r : PtpRuntime) (code memb_size cnt : Nat) (data : List Nat) :
    Option PtpRuntime :=
  match prop_avail_update code memb_size cnt data r.avail with
  | some l => some { r with avail := l }
  | none =>
    match r.avail with
    | [] => none
    | a :: rest =>
      let dup := memcpy (List.replicate (memb_size * cnt) 0) 0 (data.take (memb_size * cnt))
      let n : PtpPropAvail := { code := code, memb_size := memb_size, memb_cnt := cnt, data := dup }
      if a.code = 0 then some { r with avail := n :: rest }
      else some { r with avail := n :: a :: rest }

/-- One call of `ptp_set_prop_avail_info`: its arguments `code`, `memb_size`,
`cnt` and `data`. -/
structure PropAvailCall where
  code : Nat
  memb_size : Nat
  cnt : Nat
  data : List Nat
  deriving DecidableEq, Repr

/-- The calls of `ptp_set_prop_avail_info` of a list, in order, on one engine. -/
def ptp_set_prop_avail_info_seq : List PropAvailCall → PtpRuntime → Option PtpRuntime
  | [], r => some r
  | c :: cs, r =>
    match ptp_set_prop_avail_info r c.code c.memb_size c.cnt c.data with
    | none => none
    | some r1 => ptp_set_prop_avail_info_seq cs r1

/-- Modelled from the spec: the values `{EMPTY, CANON, EOS, FUJI, SONY, NIKON}`
that `ptp_device_type` returns, `PTP_DEV_EMPTY` etc. of the missing header
`camlib.h`. -/
inductive PtpDevType where
  | PTP_DEV_EMPTY
  | PTP_DEV_EOS
  | PTP_DEV_CANON
  | PTP_DEV_NIKON
  | PTP_DEV_SONY
  | PTP_DEV_FUJI
  deriving DecidableEq, Repr

/-- Modelled from the spec: `PTP_OC_EOS_GetStorageIDs` of `ptp.h`; the spec gives
the opcode 0x9101 for the EOS probe. -/
def PTP_OC_EOS_GetStorageIDs : Int := 0x9101

/-- The bytes of a string literal of the C source. -/
def literal (s : String) : List Nat := s.toList.map Char.toNat

/-- The library function `strcmp` on `char` arrays; a position beyond the end
of the list reads as the terminating NUL. -/
def strcmp : List Nat → List Nat → Int
  | [], [] => 0
  | [], b :: _ => -(b : Int)
  | a :: _, [] => (a : Int)
  | a :: as, b :: bs =>
    if a ≠ b then (a : Int) - (b : Int)
    else if a = 0 then 0
    else strcmp as bs

/-- The `for` loop of `ptp_check_opcode`; the first argument is
`ops_supported_length - i`. -/
def ptp_check_opcode_loop (ops : List Nat) (op : Int) : Nat → Nat → Int
  | 0, _ => 0
  | k + 1, i =>
    if ((ops.getD i 0 : Nat) : Int) = op then 1 else ptp_check_opcode_loop ops op k (i + 1)

/-- Function `ptp_check_opcode` of `lib.c`. -/
def ptp_check_opcode (r : PtpRuntime) (op : Int) : Int :=
  match r.di with
  | none => 0
  | some di => ptp_check_opcode_loop di.ops_supported op di.ops_supported_length.toNat 0

/-- Function `ptp_device_type` of `lib.c`. -/
def ptp_device_type (r : PtpRuntime) : PtpDevType :=
  match r.di with
  | none => PtpDevType.PTP_DEV_EMPTY
  | some di =>
    if strcmp di.manufacturer (literal "Canon Inc.") = 0 then
      if ptp_check_opcode r PTP_OC_EOS_GetStorageIDs ≠ 0 then PtpDevType.PTP_DEV_EOS
      else PtpDevType.PTP_DEV_CANON
    else if strcmp di.manufacturer (literal "FUJIFILM") = 0 then PtpDevType.PTP_DEV_FUJI
    else if strcmp di.manufacturer (literal "Sony Corporation") = 0 then PtpDevType.PTP_DEV_SONY
    else if strcmp di.manufacturer (literal "Nikon Corporation") = 0 then PtpDevType.PTP_DEV_NIKON
    else PtpDevType.PTP_DEV_EMPTY

/-- The engine `r` with the property-avail list `l`. -/
def setAvail (r : PtpRuntime) (l : List PtpPropAvail) : PtpRuntime := { r with avail := l }

/-- The node that the insert path of `ptp_set_prop_avail_info` fills: the code,
the element size, the count, and a fresh allocation of `memb_size * cnt`
bytes that holds the first `memb_size * cnt` bytes of `data`. -/
def insertedNode (code memb_size cnt : Nat) (data : List Nat) : PtpPropAvail :=
  { code := code, memb_size := memb_size, memb_cnt := cnt
    data := memcpy (List.replicate (memb_size * cnt) 0) 0 (data.take (memb_size * cnt)) }

/-- The node `n` after the update path of `ptp_set_prop_avail_info`: only its
owned bytes change. -/
def updatedNode (n : PtpPropAvail) (memb_size cnt : Nat) (data : List Nat) : PtpPropAvail :=
  { n with
    data := memcpy (if cnt > n.memb_cnt then realloc n.data (memb_size * cnt) else n.data) 0
      (data.take (memb_size * cnt)) }

/-- An engine whose device info names the manufacturer `Canon Inc.` (the
array continues after the NUL) and lists the operations 0x1001 and 0x9101. -/
def eosEngine : PtpRuntime :=
  { usbEngine 0 with
    di := some { manufacturer := literal "Canon Inc." ++ [0, 5]
                 ops_supported := [0x1001, 0x9101]
                 ops_supported_length := 2 } }

/-- The engine `usbEngine 0` with `caller_unlocks_mutex` set. -/
def callerUnlocksEngine : PtpRuntime := { usbEngine 0 with caller_unlocks_mutex := true }

/-! # Theorems -/

/-! ## Lemmas on memory -/

theorem length_memcpy (src : List Nat) : ∀ (dst : List Nat) (off : Nat),
    (memcpy dst off src).length = dst.length := by
  induction src with
  | nil => intro dst off; rfl
  | cons b bs ih => intro dst off; simp [memcpy, ih]

theorem getD_memcpy (src : List Nat) : ∀ (dst : List Nat) (off i : Nat),
    (memcpy dst off src).getD i 0 =
      if off ≤ i ∧ i < off + src.length ∧ i < dst.length then src.getD (i - off) 0
      else dst.getD i 0 := by
  induction src with
  | nil =>
    intro dst off i
    rw [if_neg]
    · rfl
    · simp only [List.length_nil, Nat.add_zero]; omega
  | cons b bs ih =>
    intro dst off i
    simp only [memcpy, ih, List.length_set, List.length_cons]
    by_cases h1 : off + 1 ≤ i
    · have h2 : off ≤ i := by omega
      have h3 : i - off = (i - (off + 1)) + 1 := by omega
      have h4 : off ≠ i := by omega
      by_cases h5 : i < off + 1 + bs.length ∧ i < dst.length
      · have h6 : i < off + (bs.length + 1) ∧ i < dst.length := ⟨by omega, h5.2⟩
        rw [if_pos ⟨h1, h5⟩, if_pos ⟨h2, h6⟩, h3]
        simp
      · have h6 : ¬ (off ≤ i ∧ i < off + (bs.length + 1) ∧ i < dst.length) := by
          intro h; exact h5 ⟨by omega, h.2.2⟩
        rw [if_neg (fun h => h5 h.2), if_neg h6]
        simp [List.getD_eq_getElem?_getD, List.getElem?_set, h4]
    · rw [if_neg (fun h => h1 h.1)]
      by_cases h2 : off = i
      · subst h2
        by_cases h3 : off < dst.length
        · rw [if_pos ⟨le_refl _, by omega, h3⟩]
          simp [List.getD_eq_getElem?_getD, List.getElem?_set, h3]
        · rw [if_neg (fun h => h3 h.2.2)]
          have h4 : dst[off]? = none := List.getElem?_eq_none (by omega)
          simp [List.getD_eq_getElem?_getD, List.getElem?_set, h3, h4]
      · have h3 : ¬ off ≤ i := by omega
        rw [if_neg (fun h => h3 h.1)]
        simp [List.getD_eq_getElem?_getD, List.getElem?_set, h2]

theorem rd8_memcpy_zero (dst src : List Nat) (i : Nat) (hi : i < src.length)
    (hcap : src.length ≤ dst.length) :
    rd8 (memcpy dst 0 src) i = src.getD i 0 := by
  unfold rd8
  rw [getD_memcpy, if_pos ⟨Nat.zero_le _, by omega, by omega⟩]
  simp

theorem rd16_memcpy_zero (dst src : List Nat) (i : Nat) (hi : i + 1 < src.length)
    (hcap : src.length ≤ dst.length) :
    rd16 (memcpy dst 0 src) i = src.getD i 0 + 256 * src.getD (i + 1) 0 := by
  unfold rd16
  rw [rd8_memcpy_zero dst src i (by omega) hcap, rd8_memcpy_zero dst src (i + 1) hi hcap]

theorem rd32_memcpy_zero (dst src : List Nat) (i : Nat) (hi : i + 3 < src.length)
    (hcap : src.length ≤ dst.length) :
    rd32 (memcpy dst 0 src) i =
      src.getD i 0 + 256 * src.getD (i + 1) 0 +
        65536 * (src.getD (i + 2) 0 + 256 * src.getD (i + 3) 0) := by
  unfold rd32
  rw [rd16_memcpy_zero dst src i (by omega) hcap,
    rd16_memcpy_zero dst src (i + 2) (by omega) hcap]

theorem le16_value (v : Nat) (h : v < 65536) : v % 256 + 256 * (v / 256 % 256) = v := by
  omega

theorem le32_value (v : Nat) (h : v < 4294967296) :
    v % 256 + 256 * (v / 256 % 256) +
      65536 * (v / 65536 % 256 + 256 * (v / 16777216 % 256)) = v := by
  omega

/-! ## The receive routines change the buffer only -/


theorem SameButData.refl (a : PtpRuntime) : SameButData a a := rfl

theorem SameButData.setData (a : PtpRuntime) (d : List Nat) :
    SameButData a { a with data := d } := rfl

theorem SameButData.trans {a b c : PtpRuntime} (h1 : SameButData a b) (h2 : SameButData b c) :
    SameButData a c := by
  unfold SameButData at *
  rw [h2, h1]

theorem ptpusb_loop_frame : ∀ (n : Nat) (r : PtpRuntime) (tr : Transport) (read : Int),
    SameButData r (ptpusb_recieve_bulk_packets_loop n r tr read).r := by
  intro n
  induction n with
  | zero => intro r tr read; exact SameButData.refl r
  | succ n ih =>
    intro r tr read
    simp only [ptpusb_recieve_bulk_packets_loop]
    split_ifs
    all_goals first
      | exact SameButData.setData _ _
      | exact SameButData.trans (SameButData.setData _ _) (ih _ _ _)

theorem ptpip_loop_frame (ofs : Nat) : ∀ (n : Nat) (r : PtpRuntime) (tr : Transport) (read : Int),
    SameButData r (ptpip_read_packet_loop ofs n r tr read).r := by
  intro n
  induction n with
  | zero => intro r tr read; exact SameButData.refl r
  | succ n ih =>
    intro r tr read
    simp only [ptpip_read_packet_loop]
    split_ifs
    all_goals first
      | exact SameButData.setData _ _
      | exact SameButData.trans (SameButData.setData _ _) (ih _ _ _)

theorem ptpip_read_packet_frame (r : PtpRuntime) (tr : Transport) (ofs : Nat) :
    SameButData r (ptpip_read_packet r tr ofs).r := by
  simp only [ptpip_read_packet]
  split_ifs
  · exact SameButData.setData _ _
  · exact SameButData.trans (SameButData.setData _ _) (ptpip_loop_frame _ _ _ _ _)

theorem ptpip_recieve_frame (r : PtpRuntime) (tr : Transport) :
    SameButData r (ptpip_recieve_bulk_packets r tr).r := by
  have f1 := ptpip_read_packet_frame r tr 0
  simp only [ptpip_recieve_bulk_packets]
  split_ifs
  all_goals first
    | exact f1
    | exact SameButData.trans f1 (ptpip_read_packet_frame _ _ _)
    | exact SameButData.trans f1 (SameButData.trans (ptpip_read_packet_frame _ _ _)
        (ptpip_read_packet_frame _ _ _))

theorem ptp_recieve_frame (r : PtpRuntime) (tr : Transport) :
    SameButData r (ptp_recieve_bulk_packets r tr).r := by
  unfold ptp_recieve_bulk_packets
  split_ifs
  · exact ptpip_recieve_frame r tr
  · exact ptpusb_loop_frame _ _ _ _

/-! ## The iteration bounds of the loops are never reached -/

theorem write_script (tr : Transport) (data : List Nat) (off : Nat) (length : Int)
    (h : ¬ (ptp_send_bulk_packet tr data off length).ret < 0) :
    (ptp_send_bulk_packet tr data off length).tr.writes.length + 1 = tr.writes.length := by
  unfold ptp_send_bulk_packet at *
  cases hw : tr.writes with
  | nil => simp [hw] at h
  | cons x xs => simp

theorem send_write_script (r : PtpRuntime) (tr : Transport) (sent length : Int)
    (h : ¬ (ptp_send_write r tr sent length).ret < 0) :
    (ptp_send_write r tr sent length).tr.writes.length + 1 = tr.writes.length := by
  have e : ptp_send_write r tr sent length = ptp_send_bulk_packet tr r.data sent.toNat length := by
    unfold ptp_send_write; cases r.connection_type <;> rfl
  rw [e] at h ⊢
  exact write_script _ _ _ _ h

theorem read_script_le (tr : Transport) (data : List Nat) (off : Nat) (length : Int) :
    (ptp_recieve_bulk_packet tr data off length).tr.reads.length ≤ tr.reads.length := by
  unfold ptp_recieve_bulk_packet
  split <;> simp_all

theorem read_script (tr : Transport) (data : List Nat) (off : Nat) (length : Int)
    (h : ¬ (ptp_recieve_bulk_packet tr data off length).ret < 0) :
    (ptp_recieve_bulk_packet tr data off length).tr.reads.length + 1 = tr.reads.length := by
  unfold ptp_recieve_bulk_packet at *
  split at h <;> simp_all

theorem ptpusb_read_eq (r : PtpRuntime) (tr : Transport) (read : Int) :
    ptpusb_read r tr read = ptp_recieve_bulk_packet tr r.data read.toNat r.max_packet_size := by
  unfold ptpusb_read; cases r.connection_type <;> rfl

theorem ptp_send_bulk_packets_loop_succ (r : PtpRuntime) (length : Int) (n : Nat)
    (tr : Transport) (sent : Int) :
    ptp_send_bulk_packets_loop r length (n + 1) tr sent =
      if (ptp_send_write r tr sent length).ret < 0 then
        { tr := (ptp_send_write r tr sent length).tr, ret := PTP_IO_ERR }
      else if sent + (ptp_send_write r tr sent length).ret ≥ length then
        { tr := (ptp_send_write r tr sent length).tr
          ret := sent + (ptp_send_write r tr sent length).ret }
      else ptp_send_bulk_packets_loop r length n (ptp_send_write r tr sent length).tr
        (sent + (ptp_send_write r tr sent length).ret) := rfl

theorem ptpip_read_packet_loop_succ (ofs n : Nat) (r : PtpRuntime) (tr : Transport)
    (read : Int) :
    ptpip_read_packet_loop ofs (n + 1) r tr read =
      (let a := ptpip_cmd_read tr r.data (ofs + read.toNat)
        (toInt32 (((rd32 r.data ofs : Nat) : Int) - read))
      let r1 := { r with data := a.data }
      if a.ret < 0 then { r := r1, tr := a.tr, ret := PTP_IO_ERR }
      else
        let read1 := read + a.ret
        if (((rd32 r1.data ofs : Nat) : Int) - read1) % 4294967296 = 0 then
          { r := r1, tr := a.tr, ret := read1 }
        else ptpip_read_packet_loop ofs n r1 a.tr read1) := rfl

theorem ptpusb_recieve_bulk_packets_loop_succ (n : Nat) (r : PtpRuntime) (tr : Transport)
    (read : Int) :
    ptpusb_recieve_bulk_packets_loop (n + 1) r tr read =
      (let a := ptpusb_read r tr read
      let r1 := { r with data := a.data }
      if r.connection_type ≠ ConnType.PTP_USB ∧ a.ret > 0 ∧ read = 0 ∧
          rd32 r1.data 0 = PTPIP_EVENT then
        { r := r1, tr := a.tr, ret := PTP_IO_ERR }
      else
        let b := if a.ret < 0 ∧ read = 0 then ptpusb_read r1 a.tr read else a
        let r2 := { r1 with data := b.data }
        if b.ret < 0 then { r := r2, tr := b.tr, ret := PTP_IO_ERR }
        else
          let read1 := read + b.ret
          if read1 ≥ r.data_length - r.max_packet_size then
            { r := r2, tr := b.tr, ret := PTP_OUT_OF_MEM }
          else if b.ret ≠ r.max_packet_size then
            if (bulkAt r2.data 0).type = PTP_PACKET_TYPE_DATA then
              let c := ptpusb_read r2 b.tr read1
              { r := { r2 with data := c.data }, tr := c.tr, ret := read1 }
            else { r := r2, tr := b.tr, ret := read1 }
          else ptpusb_recieve_bulk_packets_loop n r2 b.tr read1) := rfl

theorem ptp_send_bulk_packets_loop_fuel (r : PtpRuntime) (length : Int) :
    ∀ (n : Nat) (tr : Transport) (sent : Int), tr.writes.length < n →
      ptp_send_bulk_packets_loop r length (n + 1) tr sent =
        ptp_send_bulk_packets_loop r length n tr sent := by
  intro n
  induction n with
  | zero => intro tr sent h; omega
  | succ n ih =>
    intro tr sent h
    rw [ptp_send_bulk_packets_loop_succ r length (n + 1) tr sent,
      ptp_send_bulk_packets_loop_succ r length n tr sent]
    split_ifs with h1 h2
    · rfl
    · rfl
    · have := send_write_script r tr sent length h1
      exact ih _ _ (by omega)

theorem ptpusb_loop_fuel : ∀ (n : Nat) (r : PtpRuntime) (tr : Transport) (read : Int),
    tr.reads.length < n →
      ptpusb_recieve_bulk_packets_loop (n + 1) r tr read =
        ptpusb_recieve_bulk_packets_loop n r tr read := by
  intro n
  induction n with
  | zero => intro r tr read h; omega
  | succ n ih =>
    intro r tr read h
    rw [ptpusb_recieve_bulk_packets_loop_succ (n + 1) r tr read,
      ptpusb_recieve_bulk_packets_loop_succ n r tr read]
    simp only []
    have hle := read_script_le tr r.data read.toNat r.max_packet_size
    by_cases hb : (ptpusb_read r tr read).ret < 0 ∧ read = 0
    · simp only [if_pos hb]
      split_ifs with h1 h2 h3 h4
      all_goals first
        | rfl
        | (apply ih
           simp only [ptpusb_read_eq] at *
           have := read_script _ _ _ _ h2
           omega)
    · simp only [if_neg hb]
      split_ifs with h1 h2 h3 h4
      all_goals first
        | rfl
        | (apply ih
           simp only [ptpusb_read_eq] at *
           have := read_script _ _ _ _ h2
           omega)

theorem ptpip_loop_fuel (ofs : Nat) : ∀ (n : Nat) (r : PtpRuntime) (tr : Transport) (read : Int),
    tr.reads.length < n →
      ptpip_read_packet_loop ofs (n + 1) r tr read = ptpip_read_packet_loop ofs n r tr read := by
  intro n
  induction n with
  | zero => intro r tr read h; omega
  | succ n ih =>
    intro r tr read h
    rw [ptpip_read_packet_loop_succ ofs (n + 1) r tr read,
      ptpip_read_packet_loop_succ ofs n r tr read]
    simp only []
    split_ifs with h1 h2
    · rfl
    · rfl
    · apply ih
      have := read_script _ _ _ _ h1
      unfold ptpip_cmd_read
      omega

theorem ptp_send_bulk_packets_fuel (r : PtpRuntime) (tr : Transport) (length : Int) (k : Nat) :
    ptp_send_bulk_packets_loop r length (tr.writes.length + 1 + k) tr 0 =
      ptp_send_bulk_packets r tr length := by
  induction k with
  | zero => rfl
  | succ k ih =>
    rw [← ih]
    exact ptp_send_bulk_packets_loop_fuel r length (tr.writes.length + 1 + k) tr 0 (by omega)

theorem ptpusb_recieve_bulk_packets_fuel (r : PtpRuntime) (tr : Transport) (k : Nat) :
    ptpusb_recieve_bulk_packets_loop (tr.reads.length + 1 + k) r tr 0 =
      ptpusb_recieve_bulk_packets r tr := by
  induction k with
  | zero => rfl
  | succ k ih =>
    rw [← ih]
    exact ptpusb_loop_fuel (tr.reads.length + 1 + k) r tr 0 (by omega)

theorem ptpip_read_packet_loop_fuel (ofs : Nat) (r : PtpRuntime) (tr : Transport) (read : Int)
    (k : Nat) :
    ptpip_read_packet_loop ofs (tr.reads.length + 1 + k) r tr read =
      ptpip_read_packet_loop ofs (tr.reads.length + 1) r tr read := by
  induction k with
  | zero => rfl
  | succ k ih =>
    rw [← ih]
    exact ptpip_loop_fuel ofs (tr.reads.length + 1 + k) r tr read (by omega)

/-! ## C1: the command container -/

theorem getD_take_lt (l : List Nat) (n i : Nat) (h : i < n) :
    (l.take n).getD i 0 = l.getD i 0 := by
  simp [List.getD_eq_getElem?_getD, List.getElem?_take, h]

theorem cmd_packet_data (r : PtpRuntime) (cmd : PtpCommand) :
    (ptp_new_cmd_packet r cmd).r.data =
      memcpy r.data 0
        (List.take (12 + 4 * cmd.param_length)
          (le32 (12 + 4 * cmd.param_length + 0) ++ le16 PTP_PACKET_TYPE_COMMAND ++
            le16 cmd.code ++ le32 r.transaction ++ le32 (cmd.params.getD 0 0) ++
            le32 (cmd.params.getD 1 0) ++ le32 (cmd.params.getD 2 0) ++
            le32 (cmd.params.getD 3 0) ++ le32 (cmd.params.getD 4 0))) := rfl

/-- C1: for an engine with transaction counter `t` and a buffer that can hold
the container, and a command with 16-bit opcode `c`, `k ≤ 5` parameters and
32-bit parameter values, `ptp_new_cmd_packet` returns `12 + 4k` and leaves at
offset 0 a container whose little-endian fields are length `12 + 4k`, type
COMMAND, code `c`, transaction `t`, and parameters `p[0..k-1]`. -/
theorem ptp_new_cmd_packet_container (r : PtpRuntime) (cmd : PtpCommand)
    (hk : cmd.param_length ≤ 5)
    (hcap : 12 + 4 * cmd.param_length ≤ r.data.length)
    (hc : cmd.code < 65536) (ht : r.transaction < 4294967296)
    (hp : ∀ i, i < cmd.param_length → cmd.params.getD i 0 < 4294967296) :
    (ptp_new_cmd_packet r cmd).ret = ((12 + 4 * cmd.param_length : Nat) : Int) ∧
    rd32 (ptp_new_cmd_packet r cmd).r.data 0 = 12 + 4 * cmd.param_length ∧
    rd16 (ptp_new_cmd_packet r cmd).r.data 4 = PTP_PACKET_TYPE_COMMAND ∧
    rd16 (ptp_new_cmd_packet r cmd).r.data 6 = cmd.code ∧
    rd32 (ptp_new_cmd_packet r cmd).r.data 8 = r.transaction ∧
    ∀ i, i < cmd.param_length →
      rd32 (ptp_new_cmd_packet r cmd).r.data (12 + 4 * i) = cmd.params.getD i 0 := by
  have hlen : (List.take (12 + 4 * cmd.param_length)
          (le32 (12 + 4 * cmd.param_length + 0) ++ le16 PTP_PACKET_TYPE_COMMAND ++
            le16 cmd.code ++ le32 r.transaction ++ le32 (cmd.params.getD 0 0) ++
            le32 (cmd.params.getD 1 0) ++ le32 (cmd.params.getD 2 0) ++
            le32 (cmd.params.getD 3 0) ++ le32 (cmd.params.getD 4 0))).length
        = 12 + 4 * cmd.param_length := by
    simp [le32, le16]; omega
  refine ⟨rfl, ?_, ?_, ?_, ?_, ?_⟩
  · rw [cmd_packet_data, rd32_memcpy_zero _ _ 0 (by rw [hlen]; omega) (by rw [hlen]; exact hcap)]
    rw [getD_take_lt _ _ _ (by omega), getD_take_lt _ _ _ (by omega),
      getD_take_lt _ _ _ (by omega), getD_take_lt _ _ _ (by omega)]
    simp [le32, le16]
    omega
  · rw [cmd_packet_data]
    unfold rd16
    rw [rd8_memcpy_zero _ _ 4 (by rw [hlen]; omega) (by rw [hlen]; exact hcap),
      rd8_memcpy_zero _ _ 5 (by rw [hlen]; omega) (by rw [hlen]; exact hcap),
      getD_take_lt _ _ _ (by omega), getD_take_lt _ _ _ (by omega)]
    simp [le32, le16, PTP_PACKET_TYPE_COMMAND]
  · rw [cmd_packet_data]
    unfold rd16
    rw [rd8_memcpy_zero _ _ 6 (by rw [hlen]; omega) (by rw [hlen]; exact hcap),
      rd8_memcpy_zero _ _ 7 (by rw [hlen]; omega) (by rw [hlen]; exact hcap),
      getD_take_lt _ _ _ (by omega), getD_take_lt _ _ _ (by omega)]
    simp [le32, le16]
    omega
  · rw [cmd_packet_data, rd32_memcpy_zero _ _ 8 (by rw [hlen]; omega) (by rw [hlen]; exact hcap)]
    rw [getD_take_lt _ _ _ (by omega), getD_take_lt _ _ _ (by omega),
      getD_take_lt _ _ _ (by omega), getD_take_lt _ _ _ (by omega)]
    simp [le32, le16]
    omega
  · intro i hi
    have hpi := hp i hi
    rw [cmd_packet_data,
      rd32_memcpy_zero _ _ (12 + 4 * i) (by rw [hlen]; omega) (by rw [hlen]; exact hcap)]
    rw [getD_take_lt _ _ _ (by omega), getD_take_lt _ _ _ (by omega),
      getD_take_lt _ _ _ (by omega), getD_take_lt _ _ _ (by omega)]
    have hcases : i = 0 ∨ i = 1 ∨ i = 2 ∨ i = 3 ∨ i = 4 := by omega
    rcases hcases with h | h | h | h | h <;> subst h <;>
      simp only [List.getD_eq_getElem?_getD] at hpi <;> simp [le32, le16] <;> omega

theorem ptp_new_cmd_packet_container_witness :
    (ptp_new_cmd_packet (usbEngine 7) setPropCmd).ret = 16 ∧
    rd32 (ptp_new_cmd_packet (usbEngine 7) setPropCmd).r.data 0 = 16 ∧
    rd16 (ptp_new_cmd_packet (usbEngine 7) setPropCmd).r.data 4 = PTP_PACKET_TYPE_COMMAND ∧
    rd16 (ptp_new_cmd_packet (usbEngine 7) setPropCmd).r.data 6 = 0x1016 ∧
    rd32 (ptp_new_cmd_packet (usbEngine 7) setPropCmd).r.data 8 = 7 ∧
    ∀ i, i < 1 →
      rd32 (ptp_new_cmd_packet (usbEngine 7) setPropCmd).r.data (12 + 4 * i) =
        [0xD000].getD i 0 :=
  ptp_new_cmd_packet_container (usbEngine 7) setPropCmd (by decide) (by decide) (by decide)
    (by decide) (by decide)

/-! ## C4: the result of `ptp_send` -/

theorem ptp_send_eq (r : PtpRuntime) (tr : Transport) (cmd : PtpCommand) :
    ptp_send r tr cmd =
      if (ptp_send_written r tr cmd).ret ≠ (ptp_send_cmd r cmd).ret then
        { r := ptp_mutex_unlock (ptp_send_cmd r cmd).r, tr := (ptp_send_written r tr cmd).tr
          cmd := (ptp_send_cmd r cmd).cmd, ret := PTP_IO_ERR }
      else if (ptp_send_received r tr cmd).ret < 0 then
        { r := ptp_mutex_unlock (ptp_send_received r tr cmd).r
          tr := (ptp_send_received r tr cmd).tr
          cmd := (ptp_send_cmd r cmd).cmd, ret := PTP_IO_ERR }
      else
        let r3 := { (ptp_send_received r tr cmd).r with
          transaction := ((ptp_send_received r tr cmd).r.transaction + 1) % 2 ^ 32 }
        if ptp_get_return_code r3 = (PTP_RC_OK : Int) then
          { r := if !r3.caller_unlocks_mutex then ptp_mutex_unlock r3 else r3
            tr := (ptp_send_received r tr cmd).tr, cmd := (ptp_send_cmd r cmd).cmd, ret := 0 }
        else
          { r := if !r3.caller_unlocks_mutex then ptp_mutex_unlock r3 else r3
            tr := (ptp_send_received r tr cmd).tr, cmd := (ptp_send_cmd r cmd).cmd
            ret := PTP_CHECK_CODE } := rfl

theorem unlock_transaction (r : PtpRuntime) :
    (ptp_mutex_unlock r).transaction = r.transaction := by
  unfold ptp_mutex_unlock
  cases r.mutex <;> rfl

theorem lock_transaction (r : PtpRuntime) :
    (ptp_mutex_lock r).transaction = r.transaction := by
  unfold ptp_mutex_lock
  cases r.mutex <;> rfl

theorem ptp_send_cmd_transaction (r : PtpRuntime) (cmd : PtpCommand) :
    (ptp_send_cmd r cmd).r.transaction = (r.transaction + 1) % 2 ^ 32 := by
  show ((ptp_mutex_lock r).transaction + 1) % 2 ^ 32 = _
  rw [lock_transaction]

theorem ptp_send_received_transaction (r : PtpRuntime) (tr : Transport) (cmd : PtpCommand) :
    (ptp_send_received r tr cmd).r.transaction = (r.transaction + 1) % 2 ^ 32 := by
  have h := ptp_recieve_frame (ptp_send_cmd r cmd).r (ptp_send_written r tr cmd).tr
  unfold SameButData at h
  unfold ptp_send_received
  rw [h]
  exact ptp_send_cmd_transaction r cmd

/-- What `ptp_send` does to the counter when a phase fails: the counter was
already advanced when the command container was built. -/
theorem ptp_send_failure_transaction (r : PtpRuntime) (tr : Transport) (cmd : PtpCommand)
    (h : (ptp_send_written r tr cmd).ret ≠ (ptp_send_cmd r cmd).ret ∨
      (ptp_send_received r tr cmd).ret < 0) :
    (ptp_send r tr cmd).ret = PTP_IO_ERR ∧
      (ptp_send r tr cmd).r.transaction = (r.transaction + 1) % 2 ^ 32 := by
  rw [ptp_send_eq]
  by_cases hw : (ptp_send_written r tr cmd).ret ≠ (ptp_send_cmd r cmd).ret
  · rw [if_pos hw]
    exact ⟨rfl, by simp only [unlock_transaction, ptp_send_cmd_transaction]⟩
  · have hv : (ptp_send_received r tr cmd).ret < 0 := by tauto
    rw [if_neg hw, if_pos hv]
    exact ⟨rfl, by simp only [unlock_transaction, ptp_send_received_transaction]⟩

/-- What `ptp_send` does to the counter when both phases succeed: it is
advanced twice, once when the command container is built and once after the
receive phase. -/
theorem ptp_send_success_transaction (r : PtpRuntime) (tr : Transport) (cmd : PtpCommand)
    (hw : (ptp_send_written r tr cmd).ret = (ptp_send_cmd r cmd).ret)
    (hv : 0 ≤ (ptp_send_received r tr cmd).ret) :
    (ptp_send r tr cmd).r.transaction = (r.transaction + 2) % 2 ^ 32 := by
  rw [ptp_send_eq, if_neg (not_not.mpr hw), if_neg (not_lt.mpr hv)]
  simp only []
  split_ifs <;> simp only [unlock_transaction, ptp_send_received_transaction] <;> omega

theorem ptp_send_ok_phases (r : PtpRuntime) (tr : Transport) (cmd : PtpCommand)
    (h : (ptp_send r tr cmd).ret = 0) :
    (ptp_send_written r tr cmd).ret = (ptp_send_cmd r cmd).ret ∧
      0 ≤ (ptp_send_received r tr cmd).ret := by
  by_contra hn
  have hf : (ptp_send_written r tr cmd).ret ≠ (ptp_send_cmd r cmd).ret ∨
      (ptp_send_received r tr cmd).ret < 0 := by
    by_cases hw : (ptp_send_written r tr cmd).ret = (ptp_send_cmd r cmd).ret
    · right
      by_contra hv
      exact hn ⟨hw, not_lt.mp hv⟩
    · left; exact hw
  have := (ptp_send_failure_transaction r tr cmd hf).1
  rw [h] at this
  exact absurd this (by decide)

/-- What `ptp_open_session` does to the counter when both phases of its
transaction succeed: the counter is 2 afterwards. -/
theorem ptp_open_session_success_transaction (r : PtpRuntime) (tr : Transport)
    (h : (ptp_open_session r tr).ret = 0) :
    (ptp_open_session r tr).r.transaction = 2 := by
  unfold ptp_open_session at h ⊢
  obtain ⟨hw, hv⟩ := ptp_send_ok_phases _ _ _ h
  exact ptp_send_success_transaction _ _ _ hw hv

/-- What a sequence of successful `ptp_send` calls does to the counter: it
advances by two for each call. -/
theorem ptp_send_seq_transaction : ∀ (cmds : List PtpCommand) (r : PtpRuntime) (tr : Transport),
    r.transaction < 2 ^ 32 → (∀ x ∈ (ptp_send_seq cmds r tr).2.2, x = 0) →
      (ptp_send_seq cmds r tr).1.transaction = (r.transaction + 2 * cmds.length) % 2 ^ 32 := by
  intro cmds
  induction cmds with
  | nil =>
    intro r tr ht _
    show r.transaction = (r.transaction + 2 * 0) % 2 ^ 32
    omega
  | cons c cs ih =>
    intro r tr _ h
    have h0 : (ptp_send r tr c).ret = 0 := h _ (List.mem_cons_self _ _)
    have hrest : ∀ x ∈ (ptp_send_seq cs (ptp_send r tr c).r (ptp_send r tr c).tr).2.2, x = 0 :=
      fun x hx => h x (List.mem_cons_of_mem _ hx)
    obtain ⟨hw, hv⟩ := ptp_send_ok_phases _ _ _ h0
    have h1 := ptp_send_success_transaction r tr c hw hv
    have h2 := ih _ _ (by rw [h1]; omega) hrest
    show (ptp_send_seq cs (ptp_send r tr c).r (ptp_send r tr c).tr).1.transaction = _
    rw [h2, h1, List.length_cons]
    omega

/-! ## C2: OpenSession -/

/-- C2: on an engine with session 0 and transaction counter 7, over a USB
transport that takes the 16-byte command container and answers with the
12-byte RESPONSE container of code 0x2001, `ptp_open_session` writes a
command container with transaction field 0 and first parameter 1, returns OK
and leaves session 1; the transaction counter it leaves is 2, not 1. -/
theorem ptp_open_session_counter :
    (usbEngine 7).session = 0 ∧
    okResponse.length = 12 ∧
    rd16 okResponse 4 = PTP_PACKET_TYPE_RESPONSE ∧
    rd16 okResponse 6 = 0x2001 ∧
    (ptp_open_session (usbEngine 7) (scriptedTransport [16] [okResponse])).tr.wlog.map
        WriteCall.accepted =
      [[16, 0, 0, 0, 1, 0, 0x02, 0x10, 0, 0, 0, 0, 1, 0, 0, 0]] ∧
    rd32 [16, 0, 0, 0, 1, 0, 0x02, 0x10, 0, 0, 0, 0, 1, 0, 0, 0] 8 = 0 ∧
    rd32 [16, 0, 0, 0, 1, 0, 0x02, 0x10, 0, 0, 0, 0, 1, 0, 0, 0] 12 = 1 ∧
    (ptp_open_session (usbEngine 7) (scriptedTransport [16] [okResponse])).ret = 0 ∧
    (ptp_open_session (usbEngine 7) (scriptedTransport [16] [okResponse])).r.session = 1 ∧
    (ptp_open_session (usbEngine 7) (scriptedTransport [16] [okResponse])).r.transaction = 2 := by
  decide

/-! ## C3: the transaction field on the wire -/

/-- C3: two successful `ptp_send` calls that start with the transaction
counter at 0 put the transaction fields 0 and 2 on the wire (not 0 and 1) and
leave the counter at 4 (not 2). -/
theorem ptp_send_seq_wire_transactions :
    (usbEngine 0).transaction = 0 ∧
    (ptp_send_seq [getInfoCmd, getInfoCmd] (usbEngine 0)
        (scriptedTransport [12, 12] [okResponse, okResponse])).2.2 = [0, 0] ∧
    (ptp_send_seq [getInfoCmd, getInfoCmd] (usbEngine 0)
        (scriptedTransport [12, 12] [okResponse, okResponse])).2.1.wlog.map
          (fun c => rd32 c.accepted 8) = [0, 2] ∧
    (ptp_send_seq [getInfoCmd, getInfoCmd] (usbEngine 0)
        (scriptedTransport [12, 12] [okResponse, okResponse])).1.transaction = 4 := by
  decide

/-! ## C5: the counter after an I/O error -/

/-- C5: when the transport write of the command container fails, and when the
receive phase fails (both reads of the first attempt fail), `ptp_send`
returns PTP_IO_ERR; the transaction counter, 7 before the call, is 8 after
it. -/
theorem ptp_send_io_error_counter :
    (usbEngine 7).transaction = 7 ∧
    (ptp_send (usbEngine 7) (scriptedTransport [-1] []) getInfoCmd).tr.wlog.map WriteCall.ret =
      [-1] ∧
    (ptp_send (usbEngine 7) (scriptedTransport [-1] []) getInfoCmd).ret = PTP_IO_ERR ∧
    (ptp_send (usbEngine 7) (scriptedTransport [-1] []) getInfoCmd).r.transaction = 8 ∧
    (ptp_send_written (usbEngine 7)
      { writes := [12], reads := [ReadEvent.fail 0, ReadEvent.fail 0], wlog := [], rlog := [] }
      getInfoCmd).ret = 12 ∧
    (ptp_send (usbEngine 7)
      { writes := [12], reads := [ReadEvent.fail 0, ReadEvent.fail 0], wlog := [], rlog := [] }
      getInfoCmd).tr.rlog.map ReadCall.ret = [-1, -1] ∧
    (ptp_send (usbEngine 7)
      { writes := [12], reads := [ReadEvent.fail 0, ReadEvent.fail 0], wlog := [], rlog := [] }
      getInfoCmd).ret = PTP_IO_ERR ∧
    (ptp_send (usbEngine 7)
      { writes := [12], reads := [ReadEvent.fail 0, ReadEvent.fail 0], wlog := [], rlog := [] }
      getInfoCmd).r.transaction = 8 := by
  decide

/-! ## C6: the data phase of `ptp_send_data` on USB -/

theorem lock_connection_type (r : PtpRuntime) :
    (ptp_mutex_lock r).connection_type = r.connection_type := by
  unfold ptp_mutex_lock
  cases r.mutex <;> rfl

/-- What `ptp_send_data` does with the payload when the transport is not
PTP/IP: nothing. Two calls that differ in the payload bytes only have the
same result, wire record included. -/
theorem ptp_send_data_usb_payload_unused (r : PtpRuntime) (tr : Transport) (cmd : PtpCommand)
    (data data2 : List Nat) (length : Int) (h : r.connection_type ≠ ConnType.PTP_IP) :
    ptp_send_data r tr cmd data length = ptp_send_data r tr cmd data2 length := by
  have hc : (ptp_new_cmd_packet
      (if length + 50 > ({ ptp_mutex_lock r with data_phase_length := length }).data_length then
        (ptp_buffer_resize { ptp_mutex_lock r with data_phase_length := length }
          (100 + length).toNat).1
      else { ptp_mutex_lock r with data_phase_length := length }) cmd).r.connection_type ≠
      ConnType.PTP_IP := by
    have e : ∀ x : PtpRuntime, (ptp_new_cmd_packet x cmd).r.connection_type =
        x.connection_type := fun _ => rfl
    rw [e]
    split_ifs
    · show (ptp_mutex_lock r).connection_type ≠ _
      rw [lock_connection_type]; exact h
    · show (ptp_mutex_lock r).connection_type ≠ _
      rw [lock_connection_type]; exact h
  unfold ptp_send_data
  simp only [if_neg hc]

/-- C6: `ptp_send_data` of SetDevicePropValue(0xD000) with the payload `01 00`
on a USB transport whose writes succeed emits two containers and returns OK.
The second has type DATA, but its length field is 16 (12 + 4 for the
parameter), not 12 + 2, and its bytes from offset 12 are the parameter
`00 D0 00 00`, not the payload. -/
theorem ptp_send_data_usb_wire :
    (ptp_send_data (usbEngine 7) (scriptedTransport [16, 16] [okResponse]) setPropCmd [1, 0] 2).ret
      = 0 ∧
    (ptp_send_data (usbEngine 7) (scriptedTransport [16, 16] [okResponse]) setPropCmd
        [1, 0] 2).tr.wlog.map WriteCall.accepted =
      [[16, 0, 0, 0, 1, 0, 0x16, 0x10, 7, 0, 0, 0, 0, 0xD0, 0, 0],
       [16, 0, 0, 0, 2, 0, 0x16, 0x10, 8, 0, 0, 0, 0, 0xD0, 0, 0]] ∧
    rd16 [16, 0, 0, 0, 2, 0, 0x16, 0x10, 8, 0, 0, 0, 0, 0xD0, 0, 0] 4 = PTP_PACKET_TYPE_DATA ∧
    rd32 [16, 0, 0, 0, 2, 0, 0x16, 0x10, 8, 0, 0, 0, 0, 0xD0, 0, 0] 0 = 16 ∧
    [16, 0, 0, 0, 2, 0, 0x16, 0x10, 8, 0, 0, 0, 0, 0xD0, 0, 0].drop 12 = [0, 0xD0, 0, 0] := by
  decide

/-! ## C7: the return code -/

/-- C7: when the container at offset 0 has type DATA and length field `L`,
`ptp_get_return_code` returns the code field (offset 6 of a container) of the
container at offset `L`; when the first container is not of type DATA it
returns the code field of the container at offset 0. -/
theorem ptp_get_return_code_locates (r : PtpRuntime) (L : Nat) :
    (rd16 r.data 4 = PTP_PACKET_TYPE_DATA → rd32 r.data 0 = L →
      ptp_get_return_code r = ((rd16 r.data (L + 6) : Nat) : Int)) ∧
    (rd16 r.data 4 ≠ PTP_PACKET_TYPE_DATA →
      ptp_get_return_code r = ((rd16 r.data 6 : Nat) : Int)) := by
  constructor
  · intro ht hl
    subst hl
    have h : (bulkAt r.data 0).type = PTP_PACKET_TYPE_DATA := ht
    unfold ptp_get_return_code
    simp only [if_pos h]
    rfl
  · intro ht
    have h : ¬ (bulkAt r.data 0).type = PTP_PACKET_TYPE_DATA := ht
    unfold ptp_get_return_code
    simp only [if_neg h]
    rfl

theorem ptp_get_return_code_locates_witness :
    (rd16 dataThenResponse 4 = PTP_PACKET_TYPE_DATA ∧ rd32 dataThenResponse 0 = 16 ∧
      ptp_get_return_code { usbEngine 0 with data := dataThenResponse } =
        ((rd16 dataThenResponse (16 + 6) : Nat) : Int)) ∧
    (rd16 loneResponse 4 ≠ PTP_PACKET_TYPE_DATA ∧
      ptp_get_return_code { usbEngine 0 with data := loneResponse } =
        ((rd16 loneResponse 6 : Nat) : Int)) :=
  ⟨⟨by decide, by decide,
      (ptp_get_return_code_locates { usbEngine 0 with data := dataThenResponse } 16).1
        (by decide) (by decide)⟩,
    ⟨by decide,
      (ptp_get_return_code_locates { usbEngine 0 with data := loneResponse } 0).2 (by decide)⟩⟩

/-! ## C8: the response parameters -/

/-- What `ptp_get_param` reads: for an index from 0 to 4 the 32-bit word at
offset `12 + 4 * index` of the buffer, whatever the type of the first
container. -/
theorem ptp_get_param_offset (r : PtpRuntime) (i : Nat) (hi : i ≤ 4) :
    ptp_get_param r (i : Int) = rd32 r.data (12 + 4 * i) := by
  have hcases : i = 0 ∨ i = 1 ∨ i = 2 ∨ i = 3 ∨ i = 4 := by omega
  rcases hcases with h | h | h | h | h <;> subst h <;> rfl

/-- C8: on a buffer that holds a DATA container (length 16, payload
`AA BB CC DD`) followed by a RESPONSE container whose first parameter is 7,
the response is the container at offset 16 (where `ptp_get_return_code`
reads 0x2001), but `ptp_get_param` with index 0 returns 0xDDCCBBAA, the
first payload word of the DATA container, not 7. -/
theorem ptp_get_param_after_data :
    rd16 dataThenResponse 4 = PTP_PACKET_TYPE_DATA ∧
    rd32 dataThenResponse 0 = 16 ∧
    rd16 dataThenResponse (16 + 4) = PTP_PACKET_TYPE_RESPONSE ∧
    ptp_get_return_code { usbEngine 0 with data := dataThenResponse } = 0x2001 ∧
    rd32 dataThenResponse (16 + 12) = 7 ∧
    ptp_get_param { usbEngine 0 with data := dataThenResponse } 0 = 0xDDCCBBAA := by
  decide

/-! ## C9: the payload pointer -/

/-- C9: `ptp_get_payload` returns the null pointer exactly when the container
at offset 0 has type RESPONSE, and the pointer to offset 12 of the buffer in
every other case. -/
theorem ptp_get_payload_null_iff (r : PtpRuntime) :
    (ptp_get_payload r = none ↔ rd16 r.data 4 = PTP_PACKET_TYPE_RESPONSE) ∧
    (rd16 r.data 4 ≠ PTP_PACKET_TYPE_RESPONSE → ptp_get_payload r = some 12) := by
  have e : (bulkAt r.data 0).type = rd16 r.data 4 := rfl
  unfold ptp_get_payload
  simp only [e]
  by_cases h : rd16 r.data 4 = PTP_PACKET_TYPE_RESPONSE
  · simp [h]
  · simp [h]

theorem ptp_get_payload_null_iff_witness :
    (ptp_get_payload { usbEngine 0 with data := loneResponse } = none ↔
      rd16 loneResponse 4 = PTP_PACKET_TYPE_RESPONSE) ∧
    rd16 dataThenResponse 4 ≠ PTP_PACKET_TYPE_RESPONSE ∧
    ptp_get_payload { usbEngine 0 with data := dataThenResponse } = some 12 :=
  ⟨(ptp_get_payload_null_iff { usbEngine 0 with data := loneResponse }).1,
    by decide,
    (ptp_get_payload_null_iff { usbEngine 0 with data := dataThenResponse }).2 (by decide)⟩

/-! ## C10: the string codec -/

/-- C10: writing the ASCII string "AB" with `ptp_write_string` at the start of
a zeroed region of 16 bytes stores `02 41 00 00 42 00 00`, three bytes for
each character; reading from the same start with `ptp_read_string` and the
maximum 100 yields the narrow string "A", not "AB". A string of one
character ("A") is read back unchanged. -/
theorem ptp_string_codec_stride :
    (ptp_write_string (List.replicate 16 0) 0 [0x41, 0x42, 0]).1 =
      [2, 0x41, 0, 0, 0x42, 0, 0, 0, 0, 0, 0, 0, 0, 0, 0, 0] ∧
    (ptp_write_string (List.replicate 16 0) 0 [0x41, 0x42, 0]).2 = 7 ∧
    cstr (ptp_read_string (ptp_write_string (List.replicate 16 0) 0 [0x41, 0x42, 0]).1 0
      (List.replicate 8 0xFF) 100).2 = [0x41] ∧
    cstr [0x41, 0x42, 0] = [0x41, 0x42] ∧
    cstr (ptp_read_string (ptp_write_string (List.replicate 16 0) 0 [0x41, 0]).1 0
      (List.replicate 8 0xFF) 100).2 = cstr [0x41, 0] := by
  decide

/-! ## C11, C12, C13: the scalar and array readers -/

theorem getD_set_eq (l : List Nat) (i v : Nat) (h : i < l.length) :
    (l.set i v).getD i 0 = v := by
  simp [List.getD_eq_getElem?_getD, List.getElem?_set, h]

theorem getD_set_ne (l : List Nat) (i j v : Nat) (h : i ≠ j) :
    (l.set i v).getD j 0 = l.getD j 0 := by
  simp [List.getD_eq_getElem?_getD, List.getElem?_set, h]

theorem ptp_read_uint16_array_loop_spec (m : List Nat) (max : Int) (base : Nat)
    (hmax : 0 ≤ max) :
    ∀ (k i dat : Nat) (buf : List Nat), i + k ≤ buf.length →
      dat = base + 2 * min i max.toNat →
      (ptp_read_uint16_array_loop m max k i dat buf).1 = base + 2 * min (i + k) max.toNat ∧
      (∀ j, j < i → (ptp_read_uint16_array_loop m max k i dat buf).2.getD j 0 = buf.getD j 0) ∧
      (∀ j, i ≤ j → j < i + k →
        ((j : Int) < max →
          (ptp_read_uint16_array_loop m max k i dat buf).2.getD j 0 = rd16 m (base + 2 * j)) ∧
        (max ≤ (j : Int) → (ptp_read_uint16_array_loop m max k i dat buf).2.getD j 0 = 0)) := by
  intro k
  induction k with
  | zero =>
    intro i dat buf _ hdat
    refine ⟨by simpa [ptp_read_uint16_array_loop] using hdat, fun j _ => rfl, ?_⟩
    intro j h1 h2
    omega
  | succ k ih =>
    intro i dat buf hlen hdat
    by_cases hi : (i : Int) ≥ max
    · have hstep : ptp_read_uint16_array_loop m max (k + 1) i dat buf =
          ptp_read_uint16_array_loop m max k (i + 1) dat (buf.set i 0) := by
        rw [ptp_read_uint16_array_loop]; simp only [if_pos hi]
      rw [hstep]
      obtain ⟨h1, h2, h3⟩ := ih (i + 1) dat (buf.set i 0)
        (by rw [List.length_set]; omega) (by omega)
      refine ⟨by rw [h1]; omega, ?_, ?_⟩
      · intro j hj
        rw [h2 j (by omega), getD_set_ne _ _ _ _ (by omega)]
      · intro j hj1 hj2
        by_cases hji : j = i
        · subst hji
          rw [h2 j (by omega), getD_set_eq _ _ _ (by omega)]
          exact ⟨fun h => by omega, fun _ => rfl⟩
        · exact h3 j (by omega) (by omega)
    · have hstep : ptp_read_uint16_array_loop m max (k + 1) i dat buf =
          ptp_read_uint16_array_loop m max k (i + 1) (dat + 2) (buf.set i (rd16 m dat)) := by
        rw [ptp_read_uint16_array_loop]; simp only [if_neg hi]; rfl
      rw [hstep]
      obtain ⟨h1, h2, h3⟩ := ih (i + 1) (dat + 2) (buf.set i (rd16 m dat))
        (by rw [List.length_set]; omega) (by omega)
      refine ⟨by rw [h1]; omega, ?_, ?_⟩
      · intro j hj
        rw [h2 j (by omega), getD_set_ne _ _ _ _ (by omega)]
      · intro j hj1 hj2
        by_cases hji : j = i
        · subst hji
          rw [h2 j (by omega), getD_set_eq _ _ _ (by omega)]
          have hd : dat = base + 2 * j := by omega
          exact ⟨fun _ => by rw [hd], fun h => by omega⟩
        · exact h3 j (by omega) (by omega)

/-- C12: for an input whose count field is `n ≤ 255`, a cap `max ≥ 0` and an
output array with room for `n` elements, `ptp_read_uint16_array` returns `n`,
sets element `i` to the `i`-th little-endian 16-bit element of the input for
`i < min(n, max)`, sets element `i` to 0 for `max ≤ i < n`, and advances the
cursor by `4 + 2 * min(n, max)` bytes. -/
theorem ptp_read_uint16_array_result (m : List Nat) (dat : Nat) (buf : List Nat) (max : Int)
    (n : Nat) (hn : rd32 m dat = n) (h255 : n ≤ 255) (hmax : 0 ≤ max)
    (hbuf : n ≤ buf.length) :
    (ptp_read_uint16_array m dat buf max).2.2 = (n : Int) ∧
    (∀ i, i < n → (i : Int) < max →
      (ptp_read_uint16_array m dat buf max).2.1.getD i 0 = rd16 m (dat + 4 + 2 * i)) ∧
    (∀ i, i < n → max ≤ (i : Int) → (ptp_read_uint16_array m dat buf max).2.1.getD i 0 = 0) ∧
    (ptp_read_uint16_array m dat buf max).1 = dat + 4 + 2 * min n max.toNat := by
  have hv : (ptp_read_uint32 m dat).1 = n := by
    show rd32 m dat % 65536 = n
    rw [hn]; omega
  have hgt : ¬ (ptp_read_uint32 m dat).1 > 0xff := by rw [hv]; omega
  have e : ptp_read_uint16_array m dat buf max =
      ((ptp_read_uint16_array_loop m max n 0 (dat + 4) buf).1,
        (ptp_read_uint16_array_loop m max n 0 (dat + 4) buf).2, (n : Int)) := by
    have hgt2 : ¬ n > 0xff := by omega
    unfold ptp_read_uint16_array
    simp only [hv, if_neg hgt2]
    rfl
  obtain ⟨h1, _, h3⟩ := ptp_read_uint16_array_loop_spec m max (dat + 4) hmax n 0 (dat + 4) buf
    (by omega) (by simp)
  rw [e]
  refine ⟨rfl, ?_, ?_, ?_⟩
  · intro i hi hlt
    exact (h3 i (by omega) (by omega)).1 hlt
  · intro i hi hge
    exact (h3 i (by omega) (by omega)).2 hge
  · show (ptp_read_uint16_array_loop m max n 0 (dat + 4) buf).1 = _
    rw [h1]; simp

theorem ptp_read_uint16_array_result_witness :
    (ptp_read_uint16_array countedArray 0 (List.replicate 4 0xFFFF) 2).2.2 = ((3 : Nat) : Int) ∧
    (∀ i : Nat, i < 3 → (i : Int) < 2 →
      (ptp_read_uint16_array countedArray 0 (List.replicate 4 0xFFFF) 2).2.1.getD i 0 =
        rd16 countedArray (0 + 4 + 2 * i)) ∧
    (∀ i : Nat, i < 3 → (2 : Int) ≤ (i : Int) →
      (ptp_read_uint16_array countedArray 0 (List.replicate 4 0xFFFF) 2).2.1.getD i 0 = 0) ∧
    (ptp_read_uint16_array countedArray 0 (List.replicate 4 0xFFFF) 2).1 =
      0 + 4 + 2 * min 3 (2 : Int).toNat :=
  ptp_read_uint16_array_result countedArray 0 (List.replicate 4 0xFFFF) 2 3 (by decide)
    (by decide) (by decide) (by decide)

/-- What `ptp_read_uint32` returns for four bytes at the cursor: the 16-bit
value of the first two, the two high bytes are dropped. -/
theorem ptp_read_uint32_low_half (m : List Nat) (dat : Nat)
    (h0 : rd8 m dat < 256) (h1 : rd8 m (dat + 1) < 256) :
    ptp_read_uint32 m dat = (rd8 m dat + 256 * rd8 m (dat + 1), dat + 4) := by
  unfold ptp_read_uint32 rd32 rd16
  congr 1
  omega

/-- C11: the input `00 00 01 00 ...` has the count field 65536, greater than
255, and `ptp_read_uint16_array` returns 0 for it, not -1; for the count
field 65538 it returns 2 and reads two elements. -/
theorem ptp_read_uint16_array_wide_count :
    rd32 [0, 0, 1, 0, 0x11, 0x22, 0x33, 0x44] 0 = 65536 ∧
    ptp_read_uint16_array [0, 0, 1, 0, 0x11, 0x22, 0x33, 0x44] 0 [7, 7, 7] 3 = (4, [7, 7, 7], 0) ∧
    rd32 [2, 0, 1, 0, 0x11, 0x22, 0x33, 0x44] 0 = 65538 ∧
    ptp_read_uint16_array [2, 0, 1, 0, 0x11, 0x22, 0x33, 0x44] 0 [7, 7, 7] 3 =
      (8, [0x2211, 0x4433, 7], 2) := by
  decide

/-- C13: for the four bytes `00 00 01 00` at the cursor, whose little-endian
32-bit value is 65536, `ptp_read_uint32` returns 0 (and advances by 4); for
`78 56 34 12` it returns 0x5678, not 0x12345678. `ptp_read_uint16` and
`ptp_read_uint8` return `b0 + 256*b1` and `b0` and advance by 2 and 1. -/
theorem ptp_read_uint32_narrowed :
    0 + 256 * 0 + 65536 * 1 + 16777216 * 0 = 65536 ∧
    ptp_read_uint32 [0, 0, 1, 0] 0 = (0, 4) ∧
    ptp_read_uint32 [0x78, 0x56, 0x34, 0x12] 0 = (0x5678, 4) ∧
    ptp_read_uint16 [0x78, 0x56, 0x34, 0x12] 0 = (0x78 + 256 * 0x56, 2) ∧
    ptp_read_uint8 [0x78, 0x56, 0x34, 0x12] 0 = (0x78, 1) := by
  decide

/-! ## C14: receive assembly on USB -/

theorem setData_data (r : PtpRuntime) (d : List Nat) : (setData r d).data = d := rfl

theorem setData_setData (r : PtpRuntime) (a b : List Nat) :
    setData (setData r a) b = setData r b := rfl

theorem memcpy_append (a : List Nat) : ∀ (d : List Nat) (off : Nat) (b : List Nat),
    memcpy d off (a ++ b) = memcpy (memcpy d off a) (off + a.length) b := by
  induction a with
  | nil => intro d off b; rfl
  | cons x xs ih =>
    intro d off b
    show memcpy (d.set off x) (off + 1) (xs ++ b) = _
    rw [ih]
    show _ = memcpy (memcpy (d.set off x) (off + 1) xs) (off + (xs.length + 1)) b
    congr 1
    omega

theorem take_memcpy (d src : List Nat) (off : Nat) (h : off + src.length ≤ d.length) :
    ((memcpy d off src).drop off).take src.length = src := by
  apply List.ext_getElem
  · simp [length_memcpy]; omega
  · intro i h1 h2
    rw [List.getElem_take, List.getElem_drop]
    have h3 : off + i < (memcpy d off src).length := by rw [length_memcpy]; omega
    have h4 := getD_memcpy src d off (off + i)
    rw [if_pos ⟨by omega, by omega, by omega⟩] at h4
    rw [List.getD_eq_getElem _ _ h3] at h4
    have h5 : off + i - off = i := by omega
    rw [h5, List.getD_eq_getElem _ _ h2] at h4
    exact h4

theorem take_memcpy_zero (d src : List Nat) (h : src.length ≤ d.length) :
    (memcpy d 0 src).take src.length = src := by
  have := take_memcpy d src 0 (by omega)
  simpa using this

theorem recv_packet (tr : Transport) (data : List Nat) (off : Nat) (size : Int)
    (p : List Nat) (rest : List ReadEvent) (h : tr.reads = ReadEvent.packet p :: rest) :
    (ptp_recieve_bulk_packet tr data off size).ret = (p.length : Int) ∧
      (ptp_recieve_bulk_packet tr data off size).data = memcpy data off p ∧
      (ptp_recieve_bulk_packet tr data off size).tr.reads = rest := by
  unfold ptp_recieve_bulk_packet
  rw [h]
  exact ⟨rfl, rfl, rfl⟩

theorem recv_fail (tr : Transport) (data : List Nat) (off : Nat) (size : Int)
    (e : Nat) (rest : List ReadEvent) (h : tr.reads = ReadEvent.fail e :: rest) :
    (ptp_recieve_bulk_packet tr data off size).ret = Int.negSucc e ∧
      (ptp_recieve_bulk_packet tr data off size).data = data ∧
      (ptp_recieve_bulk_packet tr data off size).tr.reads = rest := by
  unfold ptp_recieve_bulk_packet
  rw [h]
  exact ⟨rfl, rfl, rfl⟩

theorem recv_exhausted (tr : Transport) (data : List Nat) (off : Nat) (size : Int)
    (h : tr.reads = []) :
    (ptp_recieve_bulk_packet tr data off size).ret = -1 ∧
      (ptp_recieve_bulk_packet tr data off size).data = data ∧
      (ptp_recieve_bulk_packet tr data off size).tr.reads = [] := by
  unfold ptp_recieve_bulk_packet
  rw [h]
  exact ⟨rfl, rfl, rfl⟩

/-- One iteration of the USB receive loop that reads a full packet with room
left in the buffer: the packet is stored at the running offset and the loop
goes on with the advanced offset. -/
theorem ptpusb_loop_full_packet (n : Nat) (r : PtpRuntime) (tr : Transport) (k : Nat)
    (p : List Nat) (rest : List ReadEvent)
    (husb : r.connection_type = ConnType.PTP_USB)
    (h : tr.reads = ReadEvent.packet p :: rest)
    (hp : (p.length : Int) = r.max_packet_size)
    (hcap : ((k + p.length : Nat) : Int) < r.data_length - r.max_packet_size) :
    ∃ tr1 : Transport, tr1.reads = rest ∧
      ptpusb_recieve_bulk_packets_loop (n + 1) r tr (k : Int) =
        ptpusb_recieve_bulk_packets_loop n (setData r (memcpy r.data k p)) tr1
          ((k + p.length : Nat) : Int) := by
  unfold setData
  obtain ⟨h1, h2, h3⟩ := recv_packet tr r.data k r.max_packet_size p rest h
  refine ⟨(ptp_recieve_bulk_packet tr r.data k r.max_packet_size).tr, h3, ?_⟩
  have hq : ptpusb_read r tr (k : Int) = ptp_recieve_bulk_packet tr r.data k r.max_packet_size := by
    rw [ptpusb_read_eq]; simp
  rw [ptpusb_recieve_bulk_packets_loop_succ, hq]
  generalize ptp_recieve_bulk_packet tr r.data k r.max_packet_size = q at h1 h2 h3 ⊢
  obtain ⟨qtr, qdata, qret⟩ := q
  simp only at h1 h2 h3
  subst h1 h2
  push_cast at hcap
  dsimp only
  split_ifs with c1 c2 c3 c4 c5
  all_goals try dsimp only at *
  all_goals first
    | (push_cast; rfl)
    | omega
    | exact absurd husb c1.1

/-- One iteration of the USB receive loop that reads a short packet with room
left in the buffer, when the container at offset 0 is then not of type DATA:
the packet is stored at the running offset and the routine returns the
total. -/
theorem ptpusb_loop_short_packet (n : Nat) (r : PtpRuntime) (tr : Transport) (k : Nat)
    (p : List Nat) (rest : List ReadEvent)
    (husb : r.connection_type = ConnType.PTP_USB)
    (h : tr.reads = ReadEvent.packet p :: rest)
    (hp : (p.length : Int) ≠ r.max_packet_size)
    (hcap : ((k + p.length : Nat) : Int) < r.data_length - r.max_packet_size)
    (ht : rd16 (memcpy r.data k p) 4 ≠ PTP_PACKET_TYPE_DATA) :
    ∃ tr1 : Transport, tr1.reads = rest ∧
      ptpusb_recieve_bulk_packets_loop (n + 1) r tr (k : Int) =
        { r := setData r (memcpy r.data k p), tr := tr1
          ret := ((k + p.length : Nat) : Int) } := by
  unfold setData
  obtain ⟨h1, h2, h3⟩ := recv_packet tr r.data k r.max_packet_size p rest h
  refine ⟨(ptp_recieve_bulk_packet tr r.data k r.max_packet_size).tr, h3, ?_⟩
  have hq : ptpusb_read r tr (k : Int) = ptp_recieve_bulk_packet tr r.data k r.max_packet_size := by
    rw [ptpusb_read_eq]; simp
  rw [ptpusb_recieve_bulk_packets_loop_succ, hq]
  generalize ptp_recieve_bulk_packet tr r.data k r.max_packet_size = q at h1 h2 h3 ⊢
  obtain ⟨qtr, qdata, qret⟩ := q
  simp only at h1 h2 h3
  subst h1 h2
  push_cast at hcap
  have ht2 : ¬ (bulkAt (memcpy r.data k p) 0).type = PTP_PACKET_TYPE_DATA := ht
  dsimp only
  split_ifs with c1 c2 c3 c4 c5
  all_goals try dsimp only at *
  all_goals first
    | (push_cast; rfl)
    | omega
    | exact absurd husb c1.1

/-- C14: on a USB engine with `max_packet_size = max` whose buffer has a
capacity greater than `4*max + r`, against a transport whose next reads
deliver packets of the sizes `max`, `max`, `max`, `r` with `0 ≤ r < max` (the
container then at offset 0 not being of type DATA), the USB receive routine
returns `3*max + r` and the first `3*max + r` bytes of the buffer are the four
packets in order. -/
theorem ptpusb_recieve_assembly (r : PtpRuntime) (tr : Transport) (mx rr : Nat)
    (p1 p2 p3 p4 : List Nat) (rest : List ReadEvent)
    (husb : r.connection_type = ConnType.PTP_USB)
    (hmax : r.max_packet_size = (mx : Int)) (hrr : rr < mx)
    (hcap : ((4 * mx + rr : Nat) : Int) < r.data_length)
    (hbuf : (r.data.length : Int) = r.data_length)
    (h1 : p1.length = mx) (h2 : p2.length = mx) (h3 : p3.length = mx) (h4 : p4.length = rr)
    (hreads : tr.reads = ReadEvent.packet p1 :: ReadEvent.packet p2 :: ReadEvent.packet p3 ::
      ReadEvent.packet p4 :: rest)
    (htype : rd16 (memcpy r.data 0 (p1 ++ p2 ++ p3 ++ p4)) 4 ≠ PTP_PACKET_TYPE_DATA) :
    (ptpusb_recieve_bulk_packets r tr).ret = ((3 * mx + rr : Nat) : Int) ∧
    (ptpusb_recieve_bulk_packets r tr).r.data.take (3 * mx + rr) = p1 ++ p2 ++ p3 ++ p4 := by
  have hfuel : tr.reads.length + 1 = rest.length + 1 + 1 + 1 + 1 + 1 := by
    rw [hreads]; simp only [List.length_cons]
  unfold ptpusb_recieve_bulk_packets
  rw [hfuel]
  obtain ⟨t1, ht1, e1⟩ := ptpusb_loop_full_packet (rest.length + 1 + 1 + 1 + 1) r tr 0 p1 _
    husb hreads (by rw [hmax, h1]) (by rw [hmax]; push_cast at hcap ⊢; omega)
  rw [show ((0 : Nat) : Int) = 0 from rfl] at e1
  rw [e1]
  obtain ⟨t2, ht2, e2⟩ := ptpusb_loop_full_packet (rest.length + 1 + 1 + 1)
    (setData r (memcpy r.data 0 p1)) t1 (0 + p1.length) p2 _ husb ht1
    (by show _ = r.max_packet_size; rw [hmax, h2])
    (by show _ < r.data_length - r.max_packet_size; rw [hmax]; push_cast at hcap ⊢; omega)
  simp only [setData_data, setData_setData] at e2
  rw [e2]
  obtain ⟨t3, ht3, e3⟩ := ptpusb_loop_full_packet (rest.length + 1 + 1)
    (setData r (memcpy (memcpy r.data 0 p1) (0 + p1.length) p2))
    t2 (0 + p1.length + p2.length) p3 _ husb ht2
    (by show _ = r.max_packet_size; rw [hmax, h3])
    (by show _ < r.data_length - r.max_packet_size; rw [hmax]; push_cast at hcap ⊢; omega)
  simp only [setData_data, setData_setData] at e3
  rw [e3]
  have hd : memcpy (memcpy (memcpy (memcpy r.data 0 p1) (0 + p1.length) p2)
      (0 + p1.length + p2.length) p3) (0 + p1.length + p2.length + p3.length) p4 =
      memcpy r.data 0 (p1 ++ p2 ++ p3 ++ p4) := by
    rw [memcpy_append, memcpy_append, memcpy_append]
    simp only [List.length_append, Nat.add_assoc]
  obtain ⟨t4, _, e4⟩ := ptpusb_loop_short_packet (rest.length + 1)
    (setData r (memcpy (memcpy (memcpy r.data 0 p1) (0 + p1.length) p2)
      (0 + p1.length + p2.length) p3))
    t3 (0 + p1.length + p2.length + p3.length) p4 rest husb ht3
    (by show _ ≠ r.max_packet_size; rw [hmax, h4]; omega)
    (by show _ < r.data_length - r.max_packet_size; rw [hmax]; push_cast at hcap ⊢; omega)
    (by simp only [setData_data]; rw [hd]; exact htype)
  simp only [setData_data, setData_setData] at e4
  rw [e4]
  refine ⟨?_, ?_⟩
  · show ((0 + p1.length + p2.length + p3.length + p4.length : Nat) : Int) = _
    rw [h1, h2, h3, h4]; push_cast; ring
  · show (memcpy _ _ p4).take _ = _
    rw [hd]
    have hl : (p1 ++ p2 ++ p3 ++ p4).length = 3 * mx + rr := by
      simp only [List.length_append, h1, h2, h3, h4]; ring
    rw [← hl]
    apply take_memcpy_zero
    rw [hl]
    have : ((3 * mx + rr : Nat) : Int) ≤ (r.data.length : Int) := by
      rw [hbuf]; push_cast at hcap ⊢; omega
    exact_mod_cast this

theorem ptpusb_recieve_assembly_witness :
    (ptpusb_recieve_bulk_packets smallEngine
      (scriptedTransport [] [[14, 0, 0, 0], [3, 0, 1, 0x20], [0, 0, 0, 0], [9, 9]])).ret =
      ((3 * 4 + 2 : Nat) : Int) ∧
    (ptpusb_recieve_bulk_packets smallEngine
      (scriptedTransport [] [[14, 0, 0, 0], [3, 0, 1, 0x20], [0, 0, 0, 0], [9, 9]])).r.data.take
        (3 * 4 + 2) = [14, 0, 0, 0] ++ [3, 0, 1, 0x20] ++ [0, 0, 0, 0] ++ [9, 9] :=
  ptpusb_recieve_assembly smallEngine
    (scriptedTransport [] [[14, 0, 0, 0], [3, 0, 1, 0x20], [0, 0, 0, 0], [9, 9]]) 4 2
    [14, 0, 0, 0] [3, 0, 1, 0x20] [0, 0, 0, 0] [9, 9] [] rfl rfl (by decide) (by decide)
    (by decide) rfl rfl rfl rfl rfl (by decide)

/-! ## C15, C16: failures and the capacity check of the USB receive routine -/

/-- C15: on a USB engine with room in the buffer, a read failure after bytes
have been received does not always give PTP_IO_ERR: when the first container
is of type DATA and the extra read for the response fails (returns -1), the
routine returns 14, the size of the DATA container, as a success. The other
cases behave as the spec says: a failed first read followed by a good one gives the
data of the good read, two failed first reads give PTP_IO_ERR, and a failed
loop read after a full packet gives PTP_IO_ERR with no retry. -/
theorem ptpusb_recieve_extra_read_failure :
    rd16 [14, 0, 0, 0, 2, 0, 0x01, 0x10, 5, 0, 0, 0, 0xAA, 0xBB] 4 = PTP_PACKET_TYPE_DATA ∧
    (ptpusb_recieve_bulk_packets (usbEngine 0)
      { writes := [], wlog := [], rlog := []
        reads := [ReadEvent.packet [14, 0, 0, 0, 2, 0, 0x01, 0x10, 5, 0, 0, 0, 0xAA, 0xBB],
          ReadEvent.fail 0] }).tr.rlog.map ReadCall.ret = [14, -1] ∧
    (ptpusb_recieve_bulk_packets (usbEngine 0)
      { writes := [], wlog := [], rlog := []
        reads := [ReadEvent.packet [14, 0, 0, 0, 2, 0, 0x01, 0x10, 5, 0, 0, 0, 0xAA, 0xBB],
          ReadEvent.fail 0] }).ret = 14 ∧
    (ptpusb_recieve_bulk_packets (usbEngine 0)
      { writes := [], wlog := [], rlog := []
        reads := [ReadEvent.fail 0, ReadEvent.packet okResponse] }).ret = 12 ∧
    (ptpusb_recieve_bulk_packets (usbEngine 0)
      { writes := [], wlog := [], rlog := []
        reads := [ReadEvent.fail 0, ReadEvent.packet okResponse] }).r.data.take 12 =
      okResponse ∧
    (ptpusb_recieve_bulk_packets (usbEngine 0)
      { writes := [], wlog := [], rlog := []
        reads := [ReadEvent.fail 0, ReadEvent.fail 0, ReadEvent.packet okResponse] }).ret =
      PTP_IO_ERR ∧
    (ptpusb_recieve_bulk_packets (usbEngine 0)
      { writes := [], wlog := [], rlog := []
        reads := [ReadEvent.packet (List.replicate 16 1), ReadEvent.fail 0,
          ReadEvent.packet okResponse] }).ret = PTP_IO_ERR ∧
    (ptpusb_recieve_bulk_packets (usbEngine 0)
      { writes := [], wlog := [], rlog := []
        reads := [ReadEvent.packet (List.replicate 16 1), ReadEvent.fail 0,
          ReadEvent.packet okResponse] }).tr.rlog.map ReadCall.ret = [16, -1] := by
  decide

/-! ## C17, C18: the PTP/IP receive routine -/

theorem rd8_memcpy_at (d src : List Nat) (off i : Nat) (hi : i < src.length)
    (hcap : off + src.length ≤ d.length) :
    rd8 (memcpy d off src) (off + i) = src.getD i 0 := by
  unfold rd8
  rw [getD_memcpy, if_pos ⟨by omega, by omega, by omega⟩]
  congr 1
  omega

theorem rd32_memcpy_at (d src : List Nat) (off i : Nat) (hi : i + 3 < src.length)
    (hcap : off + src.length ≤ d.length) :
    rd32 (memcpy d off src) (off + i) = rd32 src i := by
  unfold rd32 rd16
  have e1 : off + i + 1 = off + (i + 1) := by omega
  have e2 : off + i + 2 = off + (i + 2) := by omega
  have e3 : off + i + 2 + 1 = off + (i + 3) := by omega
  rw [e3, e2, e1, rd8_memcpy_at d src off i (by omega) hcap,
    rd8_memcpy_at d src off (i + 1) (by omega) hcap,
    rd8_memcpy_at d src off (i + 2) (by omega) hcap,
    rd8_memcpy_at d src off (i + 3) (by omega) hcap]
  rfl

theorem rd32_memcpy_before (d src : List Nat) (off i : Nat) (h : i + 4 ≤ off) :
    rd32 (memcpy d off src) i = rd32 d i := by
  unfold rd32 rd16 rd8
  rw [getD_memcpy, if_neg (by omega), getD_memcpy, if_neg (by omega),
    getD_memcpy, if_neg (by omega), getD_memcpy, if_neg (by omega)]

theorem rd32_take_header (P : List Nat) : rd32 (P.take 8) 0 = rd32 P 0 := by
  unfold rd32 rd16 rd8
  rw [getD_take_lt P 8 0 (by omega), getD_take_lt P 8 (0 + 1) (by omega),
    getD_take_lt P 8 (0 + 2) (by omega), getD_take_lt P 8 (0 + 2 + 1) (by omega)]

/-- The loop of `ptpip_read_packet` when the reads deliver the rest of a
packet of `L` bytes in the chunks `cs` and then `c`: the chunks are stored one
after the other from the offset `ofs + read` on, and the loop returns `L`. -/
theorem ptpip_read_packet_loop_chunks (ofs L : Nat) (hL : L < 4294967296) :
    ∀ (cs : List (List Nat)) (c : List Nat) (r : PtpRuntime) (tr : Transport) (read : Nat)
      (rest : List ReadEvent),
      (c ≠ [] ∨ cs = []) → 8 ≤ read → read + (cs.flatten ++ c).length = L →
      rd32 r.data ofs = L → ofs + L ≤ r.data.length →
      tr.reads = cs.map ReadEvent.packet ++ ReadEvent.packet c :: rest →
      ∃ tr1 : Transport, tr1.reads = rest ∧
        ptpip_read_packet_loop ofs (tr.reads.length + 1) r tr (read : Int) =
          { r := setData r (memcpy r.data (ofs + read) (cs.flatten ++ c)), tr := tr1
            ret := (L : Int) } := by
  intro cs
  induction cs with
  | nil =>
    intro c r tr read rest _ h8 hsum hfield hcap hscript
    simp only [List.map_nil, List.nil_append] at hscript
    simp only [List.flatten_nil, List.nil_append] at hsum ⊢
    have hfuel : tr.reads.length + 1 = rest.length + 1 + 1 := by rw [hscript]; rfl
    rw [hfuel, ptpip_read_packet_loop_succ]
    unfold ptpip_cmd_read
    dsimp only
    have hoff : ofs + ((read : Nat) : Int).toNat = ofs + read := by simp
    rw [hoff]
    obtain ⟨b1, b2, b3⟩ := recv_packet tr r.data (ofs + read)
      (toInt32 (((rd32 r.data ofs : Nat) : Int) - ((read : Nat) : Int))) c rest hscript
    generalize ptp_recieve_bulk_packet tr r.data (ofs + read)
      (toInt32 (((rd32 r.data ofs : Nat) : Int) - ((read : Nat) : Int))) = qb at b1 b2 b3 ⊢
    obtain ⟨tb, db, xb⟩ := qb
    simp only at b1 b2 b3
    subst b1 b2
    dsimp only
    have hkeep : rd32 (memcpy r.data (ofs + read) c) ofs = L := by
      rw [rd32_memcpy_before _ _ _ _ (by omega), hfield]
    have hsumI : ((read : Nat) : Int) + ((c.length : Nat) : Int) = (L : Int) := by omega
    rw [hkeep, hsumI]
    rw [if_neg (by omega), if_pos (by simp)]
    exact ⟨tb, b3, rfl⟩
  | cons c0 cs ih =>
    intro c r tr read rest hlast h8 hsum hfield hcap hscript
    have hc : c ≠ [] := by
      rcases hlast with h | h
      · exact h
      · exact absurd h (List.cons_ne_nil _ _)
    have hcl : 0 < c.length := List.length_pos.mpr hc
    simp only [List.map_cons, List.cons_append] at hscript
    simp only [List.flatten_cons, List.append_assoc, List.length_append] at hsum ⊢
    have hfuel : tr.reads.length + 1 =
        (cs.map ReadEvent.packet ++ ReadEvent.packet c :: rest).length + 1 + 1 := by
      rw [hscript]; rfl
    rw [hfuel, ptpip_read_packet_loop_succ]
    unfold ptpip_cmd_read
    dsimp only
    have hoff : ofs + ((read : Nat) : Int).toNat = ofs + read := by simp
    rw [hoff]
    obtain ⟨b1, b2, b3⟩ := recv_packet tr r.data (ofs + read)
      (toInt32 (((rd32 r.data ofs : Nat) : Int) - ((read : Nat) : Int))) c0 _ hscript
    generalize ptp_recieve_bulk_packet tr r.data (ofs + read)
      (toInt32 (((rd32 r.data ofs : Nat) : Int) - ((read : Nat) : Int))) = qb at b1 b2 b3 ⊢
    obtain ⟨tb, db, xb⟩ := qb
    simp only at b1 b2 b3
    subst b1 b2
    dsimp only
    have hkeep : rd32 (memcpy r.data (ofs + read) c0) ofs = L := by
      rw [rd32_memcpy_before _ _ _ _ (by omega), hfield]
    rw [hkeep]
    rw [if_neg (by omega), if_neg (by omega)]
    obtain ⟨tr1, ht1, e⟩ := ih c (setData r (memcpy r.data (ofs + read) c0)) tb
      (read + c0.length) rest (Or.inl hc) (by omega)
      (by simp only [List.length_append]; omega) hkeep
      (by show _ ≤ (memcpy r.data (ofs + read) c0).length; rw [length_memcpy]; exact hcap) b3
    refine ⟨tr1, ht1, ?_⟩
    rw [← b3]
    rw [Nat.cast_add] at e
    show ptpip_read_packet_loop ofs (tb.reads.length + 1)
      (setData r (memcpy r.data (ofs + read) c0)) tb _ = _
    rw [e, setData_setData, setData_data,
      memcpy_append c0 r.data (ofs + read) (cs.flatten ++ c), Nat.add_assoc]

/-- A PTP/IP packet `P` that the script delivers, into a buffer with room for
it at offset `ofs`: `ptpip_read_packet` stores it there and returns its
length. -/
theorem ptpip_read_packet_delivered (r : PtpRuntime) (tr : Transport) (ofs : Nat) (P : List Nat)
    (rest : List ReadEvent) (hd : Delivers tr.reads P rest)
    (hcap : ofs + P.length ≤ r.data.length) :
    ∃ tr1 : Transport, tr1.reads = rest ∧
      ptpip_read_packet r tr ofs =
        { r := setData r (memcpy r.data ofs P), tr := tr1, ret := (P.length : Int) } := by
  obtain ⟨h8, hfield, hL, cs, c, hlast, hbody, hscript⟩ := hd
  have htl : (P.take 8).length = 8 := by rw [List.length_take]; omega
  have hbl : (cs.flatten ++ c).length = P.length - 8 := by rw [hbody]; exact List.length_drop _ _
  obtain ⟨a1, a2, a3⟩ := recv_packet tr r.data ofs 8 (P.take 8) _ hscript
  unfold ptpip_read_packet ptpip_cmd_read
  generalize ptp_recieve_bulk_packet tr r.data ofs 8 = qa at a1 a2 a3 ⊢
  obtain ⟨ta, da, xa⟩ := qa
  simp only at a1 a2 a3
  subst a1 a2
  dsimp only
  rw [htl]
  rw [if_neg (by simp)]
  have hhead : rd32 (memcpy r.data ofs (P.take 8)) ofs = P.length := by
    have := rd32_memcpy_at r.data (P.take 8) ofs 0 (by omega) (by omega)
    rw [Nat.add_zero] at this
    rw [this, rd32_take_header, hfield]
  obtain ⟨tr1, ht1, e⟩ := ptpip_read_packet_loop_chunks ofs P.length hL cs c
    (setData r (memcpy r.data ofs (P.take 8))) ta 8 rest hlast (le_refl 8) (by omega) hhead
    (by show _ ≤ (memcpy r.data ofs (P.take 8)).length; rw [length_memcpy]; exact hcap) a3
  refine ⟨tr1, ht1, ?_⟩
  show ptpip_read_packet_loop ofs (ta.reads.length + 1)
    (setData r (memcpy r.data ofs (P.take 8))) ta ((8 : Nat) : Int) = _
  rw [e, setData_setData, setData_data, hbody]
  have hdata : memcpy (memcpy r.data ofs (P.take 8)) (ofs + 8) (P.drop 8) =
      memcpy r.data ofs P := by
    have := memcpy_append (P.take 8) r.data ofs (P.drop 8)
    rw [List.take_append_drop, htl] at this
    exact this.symm
  rw [hdata]

/-- The script `ptpipScript P`, header and rest in one read each, delivers a
well-formed packet `P`. -/
theorem ptpipScript_delivers (P : List Nat) (rest : List ReadEvent) (h8 : 8 ≤ P.length)
    (hfield : rd32 P 0 = P.length) (hL : P.length < 4294967296) :
    Delivers (ptpipScript P ++ rest) P rest :=
  ⟨h8, hfield, hL, [], P.drop 8, Or.inr rfl, rfl, rfl⟩

theorem drop_take_of_prefix (l A B C : List Nat) (h : l.take (A ++ B ++ C).length = A ++ B ++ C) :
    (l.drop A.length).take B.length = B := by
  have hl : l = A ++ (B ++ (C ++ l.drop (A ++ B ++ C).length)) := by
    conv_lhs => rw [← List.take_append_drop (A ++ B ++ C).length l, h]
    simp only [List.append_assoc]
  rw [hl, List.drop_left, List.take_left]

theorem toInt32_small (n : Nat) (h : n < 2147483648) : (toInt32 (n : Int)).toNat = n := by
  unfold toInt32
  omega

/-- C17: for every PTP/IP transport whose packet reads all succeed, that is,
whose script delivers the packet `P1`, after a first packet of type DATA_START
the packet `P2`, and after a second packet of type DATA_END the packet `P3`
(each with its body in chunks of any sizes, into a buffer with room for the
packets), the PTP/IP receive routine returns 0 exactly when the type of `P1`
is RESPONSE, or the types of `P1`, `P2`, `P3` are DATA_START, DATA_END,
RESPONSE; in every other case it returns PTP_IO_ERR. In the second case the
DATA_START packet is at offset 0 of the buffer, the DATA_END packet at the
offset `P1.length` and the RESPONSE packet at the offset
`P1.length + P2.length`. -/
theorem ptpip_recieve_packet_types (r : PtpRuntime) (tr : Transport) (P1 P2 P3 : List Nat)
    (rest1 rest2 rest3 : List ReadEvent)
    (h1 : Delivers tr.reads P1 rest1) (hcap1 : P1.length ≤ r.data.length)
    (h2 : rd32 P1 4 = PTPIP_DATA_PACKET_START →
      Delivers rest1 P2 rest2 ∧ P1.length + P2.length ≤ r.data.length ∧
        P1.length + P2.length < 2147483648)
    (h3 : rd32 P1 4 = PTPIP_DATA_PACKET_START → rd32 P2 4 = PTPIP_DATA_PACKET_END →
      Delivers rest2 P3 rest3 ∧ P1.length + P2.length + P3.length ≤ r.data.length) :
    ((ptpip_recieve_bulk_packets r tr).ret = 0 ↔
      (rd32 P1 4 = PTPIP_COMMAND_RESPONSE ∨
        (rd32 P1 4 = PTPIP_DATA_PACKET_START ∧ rd32 P2 4 = PTPIP_DATA_PACKET_END ∧
          rd32 P3 4 = PTPIP_COMMAND_RESPONSE))) ∧
    ((ptpip_recieve_bulk_packets r tr).ret ≠ 0 →
      (ptpip_recieve_bulk_packets r tr).ret = PTP_IO_ERR) ∧
    (rd32 P1 4 = PTPIP_DATA_PACKET_START → rd32 P2 4 = PTPIP_DATA_PACKET_END →
      rd32 P3 4 = PTPIP_COMMAND_RESPONSE →
      (ptpip_recieve_bulk_packets r tr).r.data.take P1.length = P1 ∧
      ((ptpip_recieve_bulk_packets r tr).r.data.drop P1.length).take P2.length = P2 ∧
      ((ptpip_recieve_bulk_packets r tr).r.data.drop (P1.length + P2.length)).take P3.length =
        P3) := by
  have hio : PTP_IO_ERR ≠ 0 := by decide
  have hSR : PTPIP_DATA_PACKET_START ≠ PTPIP_COMMAND_RESPONSE := by decide
  have h1a : 8 ≤ P1.length := h1.1
  obtain ⟨t1, ht1, e1⟩ := ptpip_read_packet_delivered r tr 0 P1 rest1 h1 (by omega)
  have hty1 : rd32 (memcpy r.data 0 P1) 4 = rd32 P1 4 := by
    have := rd32_memcpy_at r.data P1 0 4 (by omega) (by omega)
    rw [Nat.zero_add] at this
    exact this
  have hlen1 : (memcpy r.data 0 P1).length = r.data.length := length_memcpy _ _ _
  have hpk1 : ((P1.length : Int)).toNat = P1.length := by simp
  have hneg : ¬ ((P1.length : Int) < 0) := not_lt.mpr (Int.ofNat_nonneg _)
  by_cases c1 : rd32 P1 4 = PTPIP_DATA_PACKET_START
  · obtain ⟨hd2, hcap2, hsz⟩ := h2 c1
    have h2a : 8 ≤ P2.length := hd2.1
    have h2b : rd32 P2 0 = P2.length := hd2.2.1
    rw [← ht1] at hd2
    obtain ⟨t2, ht2, e2⟩ := ptpip_read_packet_delivered (setData r (memcpy r.data 0 P1)) t1
      P1.length P2 rest2 hd2 (by show _ ≤ (memcpy r.data 0 P1).length; rw [hlen1]; omega)
    simp only [setData_data, setData_setData] at e2
    have hlen2 : (memcpy (memcpy r.data 0 P1) P1.length P2).length = r.data.length := by
      rw [length_memcpy, hlen1]
    have hty2 : rd32 (memcpy (memcpy r.data 0 P1) P1.length P2) (P1.length + 4) = rd32 P2 4 :=
      rd32_memcpy_at _ P2 P1.length 4 (by omega) (by rw [hlen1]; omega)
    have hlf2 : rd32 (memcpy (memcpy r.data 0 P1) P1.length P2) P1.length = P2.length := by
      have := rd32_memcpy_at (memcpy r.data 0 P1) P2 P1.length 0 (by omega)
        (by rw [hlen1]; omega)
      rw [Nat.add_zero] at this
      rw [this, h2b]
    by_cases c2 : rd32 P2 4 = PTPIP_DATA_PACKET_END
    · obtain ⟨hd3, hcap3⟩ := h3 c1 c2
      have h3a : 8 ≤ P3.length := hd3.1
      rw [← ht2] at hd3
      obtain ⟨t3, _, e3⟩ := ptpip_read_packet_delivered
        (setData r (memcpy (memcpy r.data 0 P1) P1.length P2)) t2 (P1.length + P2.length) P3
        rest3 hd3
        (by show _ ≤ (memcpy (memcpy r.data 0 P1) P1.length P2).length; rw [hlen2]; omega)
      simp only [setData_data, setData_setData] at e3
      have hty3 : rd32
          (memcpy (memcpy (memcpy r.data 0 P1) P1.length P2) (P1.length + P2.length) P3)
          (P1.length + P2.length + 4) = rd32 P3 4 :=
        rd32_memcpy_at _ P3 (P1.length + P2.length) 4 (by omega) (by rw [hlen2]; omega)
      have hd3 : memcpy (memcpy (memcpy r.data 0 P1) P1.length P2) (P1.length + P2.length) P3 =
          memcpy r.data 0 (P1 ++ P2 ++ P3) := by
        rw [memcpy_append, memcpy_append]
        simp only [List.length_append, Nat.zero_add]
      have htake : (memcpy r.data 0 (P1 ++ P2 ++ P3)).take (P1 ++ P2 ++ P3).length =
          P1 ++ P2 ++ P3 := take_memcpy_zero _ _ (by simp only [List.length_append]; omega)
      have hpk2 : (toInt32 ((P1.length + P2.length : Nat) : Int)).toNat =
          P1.length + P2.length := toInt32_small _ hsz
      have hres : ptpip_recieve_bulk_packets r tr =
          if rd32 P3 4 ≠ PTPIP_COMMAND_RESPONSE then
            { r := setData r (memcpy r.data 0 (P1 ++ P2 ++ P3)), tr := t3, ret := PTP_IO_ERR }
          else { r := setData r (memcpy r.data 0 (P1 ++ P2 ++ P3)), tr := t3, ret := 0 } := by
        unfold ptpip_recieve_bulk_packets
        rw [e1]
        dsimp only
        rw [if_neg hneg, hpk1, setData_data, hty1, if_pos c1, e2]
        dsimp only
        rw [setData_data, hty2, if_neg (not_not.mpr c2), hlf2, hpk2, e3]
        dsimp only
        rw [setData_data, hty3, hd3]
      rw [hres]
      by_cases c3 : rd32 P3 4 = PTPIP_COMMAND_RESPONSE
      · rw [if_neg (not_not.mpr c3)]
        refine ⟨⟨fun _ => Or.inr ⟨c1, c2, c3⟩, fun _ => rfl⟩, fun h => absurd rfl h,
          fun _ _ _ => ?_⟩
        show (memcpy r.data 0 (P1 ++ P2 ++ P3)).take P1.length = P1 ∧
          ((memcpy r.data 0 (P1 ++ P2 ++ P3)).drop P1.length).take P2.length = P2 ∧
          ((memcpy r.data 0 (P1 ++ P2 ++ P3)).drop (P1.length + P2.length)).take P3.length = P3
        refine ⟨?_, drop_take_of_prefix _ P1 P2 P3 htake, ?_⟩
        · have := drop_take_of_prefix (memcpy r.data 0 (P1 ++ P2 ++ P3)) [] P1 (P2 ++ P3)
            (by simpa [List.append_assoc] using htake)
          simpa using this
        · have := drop_take_of_prefix (memcpy r.data 0 (P1 ++ P2 ++ P3)) (P1 ++ P2) P3 []
            (by simpa [List.append_assoc] using htake)
          simpa using this
      · rw [if_pos c3]
        refine ⟨⟨fun h => absurd h hio, fun h => ?_⟩, fun _ => rfl,
          fun _ _ c3p => absurd c3p c3⟩
        rcases h with h | ⟨_, _, h⟩
        · exact absurd (c1.symm.trans h) hSR
        · exact absurd h c3
    · have hres : ptpip_recieve_bulk_packets r tr =
          { r := setData r (memcpy (memcpy r.data 0 P1) P1.length P2), tr := t2
            ret := PTP_IO_ERR } := by
        unfold ptpip_recieve_bulk_packets
        rw [e1]
        dsimp only
        rw [if_neg hneg, hpk1, setData_data, hty1, if_pos c1, e2]
        dsimp only
        rw [setData_data, hty2, if_pos c2]
      rw [hres]
      refine ⟨⟨fun h => absurd h hio, fun h => ?_⟩, fun _ => rfl,
        fun _ c2p => absurd c2p c2⟩
      rcases h with h | ⟨_, h, _⟩
      · exact absurd (c1.symm.trans h) hSR
      · exact absurd h c2
  · have hres : ptpip_recieve_bulk_packets r tr =
        if rd32 P1 4 = PTPIP_COMMAND_RESPONSE then
          { r := setData r (memcpy r.data 0 P1), tr := t1, ret := 0 }
        else { r := setData r (memcpy r.data 0 P1), tr := t1, ret := PTP_IO_ERR } := by
      unfold ptpip_recieve_bulk_packets
      rw [e1]
      dsimp only
      rw [if_neg hneg, setData_data, hty1, if_neg c1]
    rw [hres]
    by_cases c4 : rd32 P1 4 = PTPIP_COMMAND_RESPONSE
    · rw [if_pos c4]
      exact ⟨⟨fun _ => Or.inl c4, fun _ => rfl⟩, fun h => absurd rfl h,
        fun c1p => absurd c1p c1⟩
    · rw [if_neg c4]
      refine ⟨⟨fun h => absurd h hio, fun h => ?_⟩, fun _ => rfl,
        fun c1p => absurd c1p c1⟩
      rcases h with h | ⟨h, _, _⟩
      · exact absurd h c4
      · exact absurd h c1

/-- Witness for C17: a transport that delivers DATA_START, DATA_END and
RESPONSE, the bodies of the first and the last in two chunks each, gives the
result 0 and the three packets one after the other in the buffer; a transport
that delivers a RESPONSE packet and nothing else gives the result 0. -/
theorem ptpip_recieve_packet_types_witness :
    ((ptpip_recieve_bulk_packets ipEngine chunkedTransport).ret = 0 ↔
      (rd32 ipStart 4 = PTPIP_COMMAND_RESPONSE ∨
        (rd32 ipStart 4 = PTPIP_DATA_PACKET_START ∧ rd32 ipEnd 4 = PTPIP_DATA_PACKET_END ∧
          rd32 ipResponse 4 = PTPIP_COMMAND_RESPONSE))) ∧
    (ptpip_recieve_bulk_packets ipEngine chunkedTransport).r.data.take ipStart.length =
      ipStart ∧
    ((ptpip_recieve_bulk_packets ipEngine chunkedTransport).r.data.drop ipStart.length).take
        ipEnd.length = ipEnd ∧
    ((ptpip_recieve_bulk_packets ipEngine chunkedTransport).r.data.drop
        (ipStart.length + ipEnd.length)).take ipResponse.length = ipResponse ∧
    (ptpip_recieve_bulk_packets ipEngine responseOnlyTransport).ret = 0 :=
  have hd1 : Delivers chunkedTransport.reads ipStart
      ([ipEnd.take 8, ipEnd.drop 8, ipResponse.take 8, [0x01, 0x20, 0], [0, 0, 0]].map
        ReadEvent.packet) :=
    ⟨by decide, by decide, by decide, [[4, 0]], [0, 0], Or.inl (by decide), by decide, rfl⟩
  have hd2 : Delivers
      ([ipEnd.take 8, ipEnd.drop 8, ipResponse.take 8, [0x01, 0x20, 0], [0, 0, 0]].map
        ReadEvent.packet) ipEnd
      ([ipResponse.take 8, [0x01, 0x20, 0], [0, 0, 0]].map ReadEvent.packet) :=
    ⟨by decide, by decide, by decide, [], ipEnd.drop 8, Or.inr rfl, by decide, rfl⟩
  have hd3 : Delivers ([ipResponse.take 8, [0x01, 0x20, 0], [0, 0, 0]].map ReadEvent.packet)
      ipResponse [] :=
    ⟨by decide, by decide, by decide, [[0x01, 0x20, 0]], [0, 0, 0], Or.inl (by decide),
      by decide, rfl⟩
  have hlay := (ptpip_recieve_packet_types ipEngine chunkedTransport ipStart ipEnd ipResponse
    _ _ _ hd1 (by decide) (fun _ => ⟨hd2, by decide, by decide⟩)
    (fun _ _ => ⟨hd3, by decide⟩)).2.2 (by decide) (by decide) (by decide)
  ⟨(ptpip_recieve_packet_types ipEngine chunkedTransport ipStart ipEnd ipResponse _ _ _
      hd1 (by decide) (fun _ => ⟨hd2, by decide, by decide⟩)
      (fun _ _ => ⟨hd3, by decide⟩)).1,
    hlay.1, hlay.2.1, hlay.2.2,
    (ptpip_recieve_packet_types ipEngine responseOnlyTransport ipResponse [] [] [] [] []
      ⟨by decide, by decide, by decide, [], ipResponse.drop 8, Or.inr rfl, by decide, rfl⟩
      (by decide) (fun h => absurd h (by decide))
      (fun h => absurd h (by decide))).1.mpr (Or.inl (by decide))⟩

/-- C18: with a buffer that still holds a DATA_START, a DATA_END and a RESPONSE
packet from an earlier receive, a transport that delivers a DATA_START packet
and then fails both following reads makes the PTP/IP receive routine return
0, not PTP_IO_ERR: the results of the reads of the second and the third
packet are not looked at, and the packet types are taken from the old bytes.
A failure while reading the first packet gives PTP_IO_ERR. -/
theorem ptpip_recieve_ignored_failure :
    (ptpip_recieve_bulk_packets
        (setData ipEngine (ipStart ++ ipEnd ++ ipResponse ++ List.replicate 26 0))
        { writes := [], wlog := [], rlog := []
          reads := [ReadEvent.packet (ipStart.take 8), ReadEvent.packet (ipStart.drop 8),
            ReadEvent.fail 0, ReadEvent.fail 0] }).tr.rlog.map ReadCall.ret = [8, 4, -1, -1] ∧
    (ptpip_recieve_bulk_packets
        (setData ipEngine (ipStart ++ ipEnd ++ ipResponse ++ List.replicate 26 0))
        { writes := [], wlog := [], rlog := []
          reads := [ReadEvent.packet (ipStart.take 8), ReadEvent.packet (ipStart.drop 8),
            ReadEvent.fail 0, ReadEvent.fail 0] }).ret = 0 ∧
    (ptpip_recieve_bulk_packets
        (setData ipEngine (ipStart ++ ipEnd ++ ipResponse ++ List.replicate 26 0))
        { writes := [], wlog := [], rlog := []
          reads := [ReadEvent.fail 0] }).ret = PTP_IO_ERR := by
  decide

/-! ## C19: `ptp_send_bulk_packets` and partial writes -/

theorem ptp_send_write_log (r : PtpRuntime) (tr : Transport) (sent length : Int) :
    ∃ c : WriteCall, (ptp_send_write r tr sent length).tr.wlog = tr.wlog ++ [c] ∧
      c.size = length ∧ c.off = sent.toNat := by
  unfold ptp_send_write
  cases r.connection_type <;> exact ⟨_, rfl, rfl, rfl⟩

/-- What every write call of `ptp_send_bulk_packets` offers: the whole
`length`, whatever has been sent before. -/
theorem ptp_send_bulk_packets_loop_offers (r : PtpRuntime) (length : Int) :
    ∀ (n : Nat) (tr : Transport) (sent : Int),
      ∃ new : List WriteCall,
        (ptp_send_bulk_packets_loop r length n tr sent).tr.wlog = tr.wlog ++ new ∧
        ∀ c ∈ new, c.size = length := by
  intro n
  induction n with
  | zero =>
    intro tr sent
    exact ⟨[], by simp [ptp_send_bulk_packets_loop], fun c hc => by simp at hc⟩
  | succ n ih =>
    intro tr sent
    obtain ⟨c, hc1, hc2, _⟩ := ptp_send_write_log r tr sent length
    rw [ptp_send_bulk_packets_loop_succ]
    split_ifs with h1 h2
    · exact ⟨[c], hc1, fun x hx => by simp at hx; rw [hx]; exact hc2⟩
    · exact ⟨[c], hc1, fun x hx => by simp at hx; rw [hx]; exact hc2⟩
    · obtain ⟨new, hn1, hn2⟩ := ih (ptp_send_write r tr sent length).tr
        (sent + (ptp_send_write r tr sent length).ret)
      refine ⟨c :: new, ?_, ?_⟩
      · rw [hn1, hc1]; simp
      · intro x hx
        rcases List.mem_cons.mp hx with hx | hx
        · rw [hx]; exact hc2
        · exact hn2 x hx

/-- C19: for `L = 12` and a transport that accepts 8 bytes of the first call
and 12 bytes of the second (each between 1 and the 12 bytes offered),
`ptp_send_bulk_packets` returns 20, not 12: the second call offers 12 bytes
from the offset 8, not the remaining 4, and the bytes accepted are the first
20 bytes of the buffer. A negative write result gives PTP_IO_ERR. -/
theorem ptp_send_bulk_packets_partial_write :
    (ptp_send_bulk_packets (setData (usbEngine 0) dataThenResponse)
      (scriptedTransport [8, 12] []) 12).tr.wlog.map WriteCall.off = [0, 8] ∧
    (ptp_send_bulk_packets (setData (usbEngine 0) dataThenResponse)
      (scriptedTransport [8, 12] []) 12).tr.wlog.map WriteCall.size = [12, 12] ∧
    (ptp_send_bulk_packets (setData (usbEngine 0) dataThenResponse)
      (scriptedTransport [8, 12] []) 12).tr.wlog.map WriteCall.ret = [8, 12] ∧
    (ptp_send_bulk_packets (setData (usbEngine 0) dataThenResponse)
      (scriptedTransport [8, 12] []) 12).ret = 20 ∧
    ((ptp_send_bulk_packets (setData (usbEngine 0) dataThenResponse)
      (scriptedTransport [8, 12] []) 12).tr.wlog.map WriteCall.accepted).flatten =
      dataThenResponse.take 20 ∧
    dataThenResponse.take 20 ≠ dataThenResponse.take 12 ∧
    (ptp_send_bulk_packets (setData (usbEngine 0) dataThenResponse)
      (scriptedTransport [8, -1] []) 12).ret = PTP_IO_ERR := by
  decide

/-! ## C20: the capacity after `ptp_send_data` -/

theorem unlock_data_length (r : PtpRuntime) :
    (ptp_mutex_unlock r).data_length = r.data_length := by
  unfold ptp_mutex_unlock
  cases r.mutex <;> rfl

theorem lock_data_length (r : PtpRuntime) :
    (ptp_mutex_lock r).data_length = r.data_length := by
  unfold ptp_mutex_lock
  cases r.mutex <;> rfl

theorem recieve_data_length (r : PtpRuntime) (tr : Transport) :
    (ptp_recieve_bulk_packets r tr).r.data_length = r.data_length := by
  have h := ptp_recieve_frame r tr
  unfold SameButData at h
  rw [h]

theorem ptpip_data_start_data_length (r : PtpRuntime) (n : Int) :
    (ptpip_data_start_packet r n).1.data_length = r.data_length := rfl

theorem ptpip_data_end_data_length (r : PtpRuntime) (d : List Nat) (n : Int) :
    (ptpip_data_end_packet r d n).1.data_length = r.data_length := rfl

theorem ptp_bulk_packet_data_length (r : PtpRuntime) (cmd : PtpCommand) (type : Nat) :
    (ptp_bulk_packet r cmd type).r.data_length = r.data_length := rfl

theorem ptp_send_data_data_length (r : PtpRuntime) (tr : Transport) (cmd : PtpCommand)
    (data : List Nat) (length : Int) :
    (ptp_send_data r tr cmd data length).r.data_length =
      if length + 50 > r.data_length then (((100 + length).toNat + 100 : Nat) : Int)
      else r.data_length := by
  unfold ptp_send_data
  lift_lets
  extract_lets r1 r2 r3
  have hr3 : r3.data_length =
      if length + 50 > r.data_length then (((100 + length).toNat + 100 : Nat) : Int)
      else r.data_length := by
    have e : r2.data_length = r.data_length := lock_data_length r
    show (if length + 50 > r2.data_length then _ else _ : PtpRuntime).data_length = _
    rw [e]
    split_ifs
    · rfl
    · exact e
  rw [← hr3]
  clear_value r3
  clear hr3
  intro p w s ws e we v src r4 d wd v1 src1 r41
  have hp : p.r.data_length = r3.data_length := ptp_bulk_packet_data_length _ _ _
  have hs : s.1.data_length = r3.data_length := (ptpip_data_start_data_length _ _).trans hp
  have he : e.1.data_length = r3.data_length := (ptpip_data_end_data_length _ _ _).trans hs
  have hd : d.r.data_length = r3.data_length := (ptp_bulk_packet_data_length _ _ _).trans hp
  have hu : v.r.data_length = r3.data_length := (recieve_data_length e.1 we.tr).trans he
  have hu1 : v1.r.data_length = r3.data_length := (recieve_data_length d.r wd.tr).trans hd
  have hsrc : src.data_length = r3.data_length := hu
  have hsrc1 : src1.data_length = r3.data_length := hu1
  have hr4 : r4.data_length = r3.data_length := hu
  have hr41 : r41.data_length = r3.data_length := hu1
  clear_value p w s ws e we v src r4 d wd v1 src1 r41
  split_ifs
  all_goals simp only [unlock_data_length]
  all_goals assumption

/-- C20 (as stated, refuted): with the capacity 64 and a payload of 20 bytes,
`20 + 50 > 64`, and the capacity after `ptp_send_data` is 220, not
`20 + 100`. -/
theorem ptp_send_data_capacity_not_n_plus_100 :
    (20 : Int) + 50 > (usbEngine 0).data_length ∧
    (ptp_send_data (usbEngine 0) (scriptedTransport [16, 16] [okResponse]) setPropCmd
      (List.replicate 20 7) 20).r.data_length = 220 ∧
    ¬ ((ptp_send_data (usbEngine 0) (scriptedTransport [16, 16] [okResponse]) setPropCmd
      (List.replicate 20 7) 20).r.data_length = 20 + 100) := by
  decide

/-- C20 (amended): for a payload length `n` and a capacity `c`, if `n + 50 > c`
the capacity after `ptp_send_data` is `n + 200` (the call asks
`ptp_buffer_resize` for `n + 100` and `ptp_buffer_resize` adds 100 more); if
`n + 50 ≤ c` the capacity is unchanged. In both cases the capacity after the
call is not smaller than before. -/
theorem ptp_send_data_capacity (r : PtpRuntime) (tr : Transport) (cmd : PtpCommand)
    (data : List Nat) (n : Nat) :
    ((n : Int) + 50 > r.data_length →
      (ptp_send_data r tr cmd data (n : Int)).r.data_length = (n : Int) + 200) ∧
    ((n : Int) + 50 ≤ r.data_length →
      (ptp_send_data r tr cmd data (n : Int)).r.data_length = r.data_length) ∧
    r.data_length ≤ (ptp_send_data r tr cmd data (n : Int)).r.data_length := by
  have h := ptp_send_data_data_length r tr cmd data (n : Int)
  have hn : (((100 + (n : Int)).toNat + 100 : Nat) : Int) = (n : Int) + 200 := by omega
  rw [hn] at h
  refine ⟨fun hgt => ?_, fun hle => ?_, ?_⟩
  · rw [h, if_pos hgt]
  · rw [h, if_neg (by omega)]
  · rw [h]
    split_ifs <;> omega

theorem ptp_send_data_capacity_witness :
    ((20 : Nat) : Int) + 50 > (usbEngine 0).data_length ∧
    (ptp_send_data (usbEngine 0) (scriptedTransport [16, 16] [okResponse]) setPropCmd
      (List.replicate 20 7) ((20 : Nat) : Int)).r.data_length = ((20 : Nat) : Int) + 200 ∧
    ((2 : Nat) : Int) + 50 ≤ (usbEngine 0).data_length ∧
    (ptp_send_data (usbEngine 0) (scriptedTransport [16, 16] [okResponse]) setPropCmd
      [1, 0] ((2 : Nat) : Int)).r.data_length = (usbEngine 0).data_length :=
  ⟨by decide,
    (ptp_send_data_capacity (usbEngine 0) (scriptedTransport [16, 16] [okResponse]) setPropCmd
      (List.replicate 20 7) 20).1 (by decide),
    by decide,
    (ptp_send_data_capacity (usbEngine 0) (scriptedTransport [16, 16] [okResponse]) setPropCmd
      [1, 0] 2).2.1 (by decide)⟩

/-! ## C21, C22: the property-avail list -/

theorem prop_avail_update_none (code memb_size cnt : Nat) (data : List Nat) :
    ∀ l : List PtpPropAvail,
      prop_avail_update code memb_size cnt data l = none ↔ ∀ n ∈ l, n.code ≠ code := by
  intro l
  induction l with
  | nil => simp [prop_avail_update]
  | cons a rest ih =>
    by_cases h : a.code = code
    · simp [prop_avail_update, h]
    · simp [prop_avail_update, h, ih]

theorem prop_avail_update_codes (code memb_size cnt : Nat) (data : List Nat) :
    ∀ l l2 : List PtpPropAvail, prop_avail_update code memb_size cnt data l = some l2 →
      l2.map PtpPropAvail.code = l.map PtpPropAvail.code := by
  intro l
  induction l with
  | nil => intro l2 h; simp [prop_avail_update] at h
  | cons a rest ih =>
    intro l2 h
    by_cases hc : a.code = code
    · simp only [prop_avail_update, if_pos hc, Option.some.injEq] at h
      rw [← h]
      rfl
    · simp only [prop_avail_update, if_neg hc, Option.map_eq_some'] at h
      obtain ⟨l3, h3, h4⟩ := h
      rw [← h4]
      simp [ih l3 h3]

/-- One call of `ptp_set_prop_avail_info` on an engine whose list is not NULL
and has no code twice: the call returns, and the list is again not NULL and
has no code twice. -/
theorem ptp_set_prop_avail_info_nodup (r : PtpRuntime) (code memb_size cnt : Nat)
    (data : List Nat) (hne : r.avail ≠ [])
    (hnd : (r.avail.map PtpPropAvail.code).Nodup) :
    ∃ r1 : PtpRuntime, ptp_set_prop_avail_info r code memb_size cnt data = some r1 ∧
      r1.avail ≠ [] ∧ (r1.avail.map PtpPropAvail.code).Nodup := by
  unfold ptp_set_prop_avail_info
  cases hu : prop_avail_update code memb_size cnt data r.avail with
  | some l =>
    have hcodes := prop_avail_update_codes code memb_size cnt data r.avail l hu
    refine ⟨_, rfl, ?_, ?_⟩
    · intro hl
      have : (l.map PtpPropAvail.code) = [] := by rw [show l = [] from hl]; rfl
      rw [hcodes] at this
      exact hne (List.map_eq_nil_iff.mp this)
    · show (l.map PtpPropAvail.code).Nodup
      rw [hcodes]; exact hnd
  | none =>
    have hnot := (prop_avail_update_none code memb_size cnt data r.avail).mp hu
    cases hl : r.avail with
    | nil => exact absurd hl hne
    | cons a rest =>
      rw [hl] at hnot hnd
      have hrest : code ∉ rest.map PtpPropAvail.code := by
        intro hm
        obtain ⟨n, hn1, hn2⟩ := List.mem_map.mp hm
        exact hnot n (List.mem_cons_of_mem _ hn1) hn2
      have hall : code ∉ (a :: rest).map PtpPropAvail.code := by
        intro hm
        obtain ⟨n, hn1, hn2⟩ := List.mem_map.mp hm
        exact hnot n hn1 hn2
      dsimp only
      split_ifs with h0
      · refine ⟨_, rfl, by simp, ?_⟩
        show (code :: rest.map PtpPropAvail.code).Nodup
        exact List.nodup_cons.mpr ⟨hrest, (List.nodup_cons.mp hnd).2⟩
      · refine ⟨_, rfl, by simp, ?_⟩
        show (code :: (a :: rest).map PtpPropAvail.code).Nodup
        exact List.nodup_cons.mpr ⟨hall, hnd⟩

theorem ptp_set_prop_avail_info_seq_nodup : ∀ (calls : List PropAvailCall) (r : PtpRuntime),
    r.avail ≠ [] → (r.avail.map PtpPropAvail.code).Nodup →
    ∃ r1 : PtpRuntime, ptp_set_prop_avail_info_seq calls r = some r1 ∧
      r1.avail ≠ [] ∧ (r1.avail.map PtpPropAvail.code).Nodup := by
  intro calls
  induction calls with
  | nil => intro r hne hnd; exact ⟨r, rfl, hne, hnd⟩
  | cons c cs ih =>
    intro r hne hnd
    obtain ⟨r1, h1, h2, h3⟩ := ptp_set_prop_avail_info_nodup r c.code c.memb_size c.cnt c.data
      hne hnd
    obtain ⟨r2, h4, h5, h6⟩ := ih r1 h2 h3
    refine ⟨r2, ?_, h5, h6⟩
    simp only [ptp_set_prop_avail_info_seq, h1]
    exact h4

theorem length_realloc (data : List Nat) (size : Nat) : (realloc data size).length = size := by
  unfold realloc
  simp
  omega

theorem ptp_set_prop_avail_info_reuse (r : PtpRuntime) (code memb_size cnt : Nat)
    (data : List Nat) (a : PtpPropAvail) (rest : List PtpPropAvail)
    (h : r.avail = a :: rest) (h0 : a.code = 0) (hnew : ∀ n ∈ r.avail, n.code ≠ code) :
    ptp_set_prop_avail_info r code memb_size cnt data =
      some (setAvail r (insertedNode code memb_size cnt data :: rest)) := by
  have hu := (prop_avail_update_none code memb_size cnt data r.avail).mpr hnew
  unfold ptp_set_prop_avail_info
  rw [hu, h]
  dsimp only
  rw [if_pos h0]
  rfl

theorem ptp_set_prop_avail_info_append (r : PtpRuntime) (code memb_size cnt : Nat)
    (data : List Nat) (a : PtpPropAvail) (rest : List PtpPropAvail)
    (h : r.avail = a :: rest) (h0 : a.code ≠ 0) (hnew : ∀ n ∈ r.avail, n.code ≠ code) :
    ptp_set_prop_avail_info r code memb_size cnt data =
      some (setAvail r (insertedNode code memb_size cnt data :: a :: rest)) := by
  have hu := (prop_avail_update_none code memb_size cnt data r.avail).mpr hnew
  unfold ptp_set_prop_avail_info
  rw [hu, h]
  dsimp only
  rw [if_neg h0]
  rfl

theorem ptp_set_prop_avail_info_update_head (r : PtpRuntime) (code memb_size cnt : Nat)
    (data : List Nat) (a : PtpPropAvail) (rest : List PtpPropAvail)
    (h : r.avail = a :: rest) (ha : a.code = code) :
    ptp_set_prop_avail_info r code memb_size cnt data =
      some (setAvail r (updatedNode a memb_size cnt data :: rest)) := by
  unfold ptp_set_prop_avail_info
  rw [h]
  simp only [prop_avail_update, if_pos ha]
  rfl

theorem ptp_set_prop_avail_info_update_second (r : PtpRuntime) (code memb_size cnt : Nat)
    (data : List Nat) (b a : PtpPropAvail) (rest : List PtpPropAvail)
    (h : r.avail = b :: a :: rest) (hb : b.code ≠ code) (ha : a.code = code) :
    ptp_set_prop_avail_info r code memb_size cnt data =
      some (setAvail r (b :: updatedNode a memb_size cnt data :: rest)) := by
  unfold ptp_set_prop_avail_info
  rw [h]
  simp only [prop_avail_update, if_neg hb, if_pos ha, Option.map_some']
  rfl

/-- C21: starting from a freshly initialised engine, every finite sequence of
`ptp_set_prop_avail_info` calls returns and leaves a list in which no
property code occurs twice. In particular the updates for the codes `A`, `B`,
`A` (`A ≠ 0`, `A ≠ B`) leave exactly two entries, with the codes `B` and `A`,
and the entry for `A` holds the `memb_size * cnt` bytes of the second `A`
update (the caller's array holding that many bytes, and the bytes fitting
the allocation when it is not grown, as they do when both `A` updates have
the same element size). -/
theorem ptp_set_prop_avail_info_unique (size : Nat) (mutex_ok : Bool)
    (calls : List PropAvailCall) (A B m1 k1 m2 k2 m3 k3 : Nat) (d1 d2 d3 : List Nat) :
    (∃ r1 : PtpRuntime,
      ptp_set_prop_avail_info_seq calls (ptp_init size mutex_ok) = some r1 ∧
        (r1.avail.map PtpPropAvail.code).Nodup) ∧
    (A ≠ 0 → A ≠ B → m3 * k3 ≤ d3.length → (k3 ≤ k1 → m3 * k3 ≤ m1 * k1) →
      ∃ r1 : PtpRuntime,
        ptp_set_prop_avail_info_seq
          [{ code := A, memb_size := m1, cnt := k1, data := d1 },
           { code := B, memb_size := m2, cnt := k2, data := d2 },
           { code := A, memb_size := m3, cnt := k3, data := d3 }]
          (ptp_init size mutex_ok) = some r1 ∧
        r1.avail.map PtpPropAvail.code = [B, A] ∧
        ∃ e ∈ r1.avail, e.code = A ∧ e.data.take (m3 * k3) = d3.take (m3 * k3)) := by
  constructor
  · obtain ⟨r1, h1, _, h3⟩ := ptp_set_prop_avail_info_seq_nodup calls (ptp_init size mutex_ok)
      (by simp [ptp_init]) (by simp [ptp_init])
    exact ⟨r1, h1, h3⟩
  · intro hA hAB hd3 hfit
    have hA0 : ¬ (0 = A) := fun h => hA h.symm
    have hBA : ¬ (B = A) := fun h => hAB h.symm
    have hlen : (d3.take (m3 * k3)).length = m3 * k3 := by
      rw [List.length_take]; omega
    have hdup : (memcpy (List.replicate (m1 * k1) 0) 0 (d1.take (m1 * k1))).length = m1 * k1 := by
      rw [length_memcpy, List.length_replicate]
    have hdata : (memcpy (if k3 > k1 then
          realloc (memcpy (List.replicate (m1 * k1) 0) 0 (d1.take (m1 * k1))) (m3 * k3)
        else memcpy (List.replicate (m1 * k1) 0) 0 (d1.take (m1 * k1))) 0
        (d3.take (m3 * k3))).take (m3 * k3) = d3.take (m3 * k3) := by
      have := take_memcpy_zero (if k3 > k1 then
          realloc (memcpy (List.replicate (m1 * k1) 0) 0 (d1.take (m1 * k1))) (m3 * k3)
        else memcpy (List.replicate (m1 * k1) 0) 0 (d1.take (m1 * k1))) (d3.take (m3 * k3))
        (by
          rw [hlen]
          split_ifs with hk
          · rw [length_realloc]
          · rw [hdup]; exact hfit (by omega))
      rw [hlen] at this
      exact this
    have h1 : ptp_set_prop_avail_info (ptp_init size mutex_ok) A m1 k1 d1 =
        some (setAvail (ptp_init size mutex_ok) [insertedNode A m1 k1 d1]) :=
      ptp_set_prop_avail_info_reuse _ A m1 k1 d1 _ [] rfl rfl (by
        intro n hn
        have : n.code = 0 := by
          rw [show n = { code := 0, memb_size := 0, memb_cnt := 0, data := [] } from
            List.mem_singleton.mp hn]
        rw [this]; exact hA0)
    have h2 : ptp_set_prop_avail_info (setAvail (ptp_init size mutex_ok) [insertedNode A m1 k1 d1])
        B m2 k2 d2 =
        some (setAvail (ptp_init size mutex_ok)
          [insertedNode B m2 k2 d2, insertedNode A m1 k1 d1]) :=
      ptp_set_prop_avail_info_append _ B m2 k2 d2 (insertedNode A m1 k1 d1) [] rfl hA (by
        intro n hn
        rw [show n = insertedNode A m1 k1 d1 from List.mem_singleton.mp hn]
        exact hAB)
    have h3 : ptp_set_prop_avail_info (setAvail (ptp_init size mutex_ok)
          [insertedNode B m2 k2 d2, insertedNode A m1 k1 d1]) A m3 k3 d3 =
        some (setAvail (ptp_init size mutex_ok)
          [insertedNode B m2 k2 d2, updatedNode (insertedNode A m1 k1 d1) m3 k3 d3]) :=
      ptp_set_prop_avail_info_update_second _ A m3 k3 d3 (insertedNode B m2 k2 d2)
        (insertedNode A m1 k1 d1) [] rfl hBA rfl
    refine ⟨setAvail (ptp_init size mutex_ok)
      [insertedNode B m2 k2 d2, updatedNode (insertedNode A m1 k1 d1) m3 k3 d3], ?_, rfl, ?_⟩
    · simp only [ptp_set_prop_avail_info_seq, h1, h2, h3]
    · exact ⟨_, List.mem_cons_of_mem _ (List.mem_cons_self _ _), rfl, hdata⟩

/-- Witness for C21: the codes 0xD001, 0xD002, 0xD001 on a fresh engine leave
the two entries 0xD002 and 0xD001, and the entry for 0xD001 holds the bytes
`9, 9` of the second update. -/
theorem ptp_set_prop_avail_info_unique_witness :
    ∃ r1 : PtpRuntime,
      ptp_set_prop_avail_info_seq
        [{ code := 0xD001, memb_size := 2, cnt := 3, data := [1, 2, 3, 4, 5, 6] },
         { code := 0xD002, memb_size := 1, cnt := 2, data := [7, 8] },
         { code := 0xD001, memb_size := 2, cnt := 1, data := [9, 9] }]
        (ptp_init 8 true) = some r1 ∧
      r1.avail.map PtpPropAvail.code = [0xD002, 0xD001] ∧
      ∃ e ∈ r1.avail, e.code = 0xD001 ∧ e.data.take (2 * 1) = [9, 9].take (2 * 1) :=
  (ptp_set_prop_avail_info_unique 8 true [] 0xD001 0xD002 2 3 1 2 2 1
    [1, 2, 3, 4, 5, 6] [7, 8] [9, 9]).2 (by decide) (by decide) (by decide) (by decide)

/-- C22: a fresh engine, the call `(0xD001, 2, 3, [1..6])` and then the call
`(0xD001, 1, 2, [9, 9])` for the same code. The update leaves the entry with
element size 2 and count 3, the values of the first call, and with six owned
bytes of which only the first two are new. After a third call
`(0xD001, 1, 3, [7, 7, 7])` the count is still 3 and the allocation still has
six bytes: the count 3 exceeds the count 2 of the most recent update and the
allocation is not touched, the comparison being made with the count 3 of the
insertion. -/
theorem ptp_set_prop_avail_info_update_keeps_count :
    (ptp_set_prop_avail_info_seq
      [{ code := 0xD001, memb_size := 2, cnt := 3, data := [1, 2, 3, 4, 5, 6] },
       { code := 0xD001, memb_size := 1, cnt := 2, data := [9, 9] }]
      (ptp_init 8 true)).map PtpRuntime.avail =
      some [{ code := 0xD001, memb_size := 2, memb_cnt := 3, data := [9, 9, 3, 4, 5, 6] }] ∧
    (ptp_set_prop_avail_info_seq
      [{ code := 0xD001, memb_size := 2, cnt := 3, data := [1, 2, 3, 4, 5, 6] },
       { code := 0xD001, memb_size := 1, cnt := 2, data := [9, 9] },
       { code := 0xD001, memb_size := 1, cnt := 3, data := [7, 7, 7] }]
      (ptp_init 8 true)).map PtpRuntime.avail =
      some [{ code := 0xD001, memb_size := 2, memb_cnt := 3, data := [7, 7, 7, 4, 5, 6] }] := by
  decide

/-! ## C23: the device type -/

theorem strcmp_eq_zero : ∀ a b : List Nat, strcmp a b = 0 ↔ cstr a = cstr b := by
  intro a
  induction a with
  | nil =>
    intro b
    cases b with
    | nil => simp [strcmp, cstr]
    | cons b bs =>
      by_cases hb : b = 0
      · simp [strcmp, cstr, hb]
      · simp [strcmp, cstr, hb]
  | cons a as ih =>
    intro b
    cases b with
    | nil =>
      by_cases ha : a = 0
      · simp [strcmp, cstr, ha]
      · simp [strcmp, cstr, ha]
    | cons b bs =>
      by_cases hab : a = b
      · subst hab
        by_cases ha : a = 0
        · simp [strcmp, cstr, ha]
        · have := ih bs
          simp only [cstr] at this
          simp [strcmp, cstr, ha, this]
      · have hz : (a : Int) - (b : Int) ≠ 0 := by omega
        by_cases ha : a = 0
        · have hb : b ≠ 0 := fun h => hab (by rw [ha, h])
          simp [strcmp, cstr, hab, ha, hb, hz]
          omega
        · by_cases hb : b = 0
          · simp [strcmp, cstr, hab, ha, hb, hz]
          · simp [strcmp, cstr, hab, ha, hb, hz]

theorem ptp_check_opcode_loop_ne_zero (ops : List Nat) (op : Int) :
    ∀ (k i : Nat), ptp_check_opcode_loop ops op k i ≠ 0 ↔
      ∃ j : Nat, i ≤ j ∧ j < i + k ∧ ((ops.getD j 0 : Nat) : Int) = op := by
  intro k
  induction k with
  | zero =>
    intro i
    simp only [ptp_check_opcode_loop, ne_eq, not_true_eq_false, false_iff]
    rintro ⟨j, h1, h2, _⟩
    omega
  | succ k ih =>
    intro i
    by_cases h : ((ops.getD i 0 : Nat) : Int) = op
    · simp only [ptp_check_opcode_loop, if_pos h]
      constructor
      · intro _
        exact ⟨i, le_refl _, by omega, h⟩
      · intro _
        decide
    · simp only [ptp_check_opcode_loop, if_neg h]
      rw [ih (i + 1)]
      constructor
      · rintro ⟨j, h1, h2, h3⟩
        exact ⟨j, by omega, by omega, h3⟩
      · rintro ⟨j, h1, h2, h3⟩
        have hji : j ≠ i := fun e => h (e ▸ h3)
        exact ⟨j, by omega, by omega, h3⟩

theorem ptp_check_opcode_ne_zero (r : PtpRuntime) (di : PtpDeviceInfo) (hdi : r.di = some di)
    (op : Nat) :
    ptp_check_opcode r (op : Int) ≠ 0 ↔
      ∃ i : Nat, (i : Int) < di.ops_supported_length ∧ di.ops_supported.getD i 0 = op := by
  unfold ptp_check_opcode
  rw [hdi]
  dsimp only
  rw [ptp_check_opcode_loop_ne_zero]
  constructor
  · rintro ⟨j, _, h2, h3⟩
    refine ⟨j, ?_, by exact_mod_cast h3⟩
    omega
  · rintro ⟨j, h2, h3⟩
    refine ⟨j, Nat.zero_le _, ?_, by exact_mod_cast h3⟩
    omega

/-- C23: `ptp_device_type` returns EMPTY when no device info is installed.
With device info installed, whose manufacturer array holds the string `m`: the
result is EOS exactly when `m` is `Canon Inc.` and the opcode 0x9101 is among
the first `ops_supported_length` supported operations; CANON when `m` is
`Canon Inc.` without that opcode; FUJI, SONY, NIKON when `m` is `FUJIFILM`,
`Sony Corporation`, `Nikon Corporation`; and EMPTY for every other `m`. -/
theorem ptp_device_type_spec (r : PtpRuntime) :
    (r.di = none → ptp_device_type r = PtpDevType.PTP_DEV_EMPTY) ∧
    ∀ di : PtpDeviceInfo, r.di = some di →
      (ptp_device_type r = PtpDevType.PTP_DEV_EOS ↔
        cstr di.manufacturer = literal "Canon Inc." ∧
          ∃ i : Nat, (i : Int) < di.ops_supported_length ∧
            di.ops_supported.getD i 0 = 0x9101) ∧
      (cstr di.manufacturer = literal "Canon Inc." →
        (¬ ∃ i : Nat, (i : Int) < di.ops_supported_length ∧
            di.ops_supported.getD i 0 = 0x9101) →
        ptp_device_type r = PtpDevType.PTP_DEV_CANON) ∧
      (cstr di.manufacturer = literal "FUJIFILM" →
        ptp_device_type r = PtpDevType.PTP_DEV_FUJI) ∧
      (cstr di.manufacturer = literal "Sony Corporation" →
        ptp_device_type r = PtpDevType.PTP_DEV_SONY) ∧
      (cstr di.manufacturer = literal "Nikon Corporation" →
        ptp_device_type r = PtpDevType.PTP_DEV_NIKON) ∧
      (cstr di.manufacturer ≠ literal "Canon Inc." →
        cstr di.manufacturer ≠ literal "FUJIFILM" →
        cstr di.manufacturer ≠ literal "Sony Corporation" →
        cstr di.manufacturer ≠ literal "Nikon Corporation" →
        ptp_device_type r = PtpDevType.PTP_DEV_EMPTY) := by
  constructor
  · intro h
    unfold ptp_device_type
    rw [h]
  · intro di hdi
    have hop := ptp_check_opcode_ne_zero r di hdi 0x9101
    have hC : strcmp di.manufacturer (literal "Canon Inc.") = 0 ↔
        cstr di.manufacturer = literal "Canon Inc." := by
      rw [strcmp_eq_zero]; exact Iff.rfl
    have hF : strcmp di.manufacturer (literal "FUJIFILM") = 0 ↔
        cstr di.manufacturer = literal "FUJIFILM" := by
      rw [strcmp_eq_zero]; exact Iff.rfl
    have hS : strcmp di.manufacturer (literal "Sony Corporation") = 0 ↔
        cstr di.manufacturer = literal "Sony Corporation" := by
      rw [strcmp_eq_zero]; exact Iff.rfl
    have hN : strcmp di.manufacturer (literal "Nikon Corporation") = 0 ↔
        cstr di.manufacturer = literal "Nikon Corporation" := by
      rw [strcmp_eq_zero]; exact Iff.rfl
    have hCF : literal "Canon Inc." ≠ literal "FUJIFILM" := by decide
    have hCS : literal "Canon Inc." ≠ literal "Sony Corporation" := by decide
    have hCN : literal "Canon Inc." ≠ literal "Nikon Corporation" := by decide
    have hFS : literal "FUJIFILM" ≠ literal "Sony Corporation" := by decide
    have hFN : literal "FUJIFILM" ≠ literal "Nikon Corporation" := by decide
    have hSN : literal "Sony Corporation" ≠ literal "Nikon Corporation" := by decide
    have hprobe : ptp_check_opcode r PTP_OC_EOS_GetStorageIDs ≠ 0 ↔
        ∃ i : Nat, (i : Int) < di.ops_supported_length ∧
          di.ops_supported.getD i 0 = 0x9101 := hop
    unfold ptp_device_type
    rw [hdi]
    dsimp only
    refine ⟨?_, ?_, ?_, ?_, ?_, ?_⟩
    · constructor
      · intro h
        split_ifs at h with h1 h2 h3 h4 h5
        exact ⟨hC.mp h1, hprobe.mp h2⟩
      · rintro ⟨h1, h2⟩
        rw [if_pos (hC.mpr h1), if_pos (hprobe.mpr h2)]
    · intro h1 h2
      rw [if_pos (hC.mpr h1), if_neg (fun h => h2 (hprobe.mp h))]
    · intro h
      rw [if_neg (fun h1 => hCF ((hC.mp h1).symm.trans h)), if_pos (hF.mpr h)]
    · intro h
      rw [if_neg (fun h1 => hCS ((hC.mp h1).symm.trans h)),
        if_neg (fun h1 => hFS ((hF.mp h1).symm.trans h)), if_pos (hS.mpr h)]
    · intro h
      rw [if_neg (fun h1 => hCN ((hC.mp h1).symm.trans h)),
        if_neg (fun h1 => hFN ((hF.mp h1).symm.trans h)),
        if_neg (fun h1 => hSN ((hS.mp h1).symm.trans h)), if_pos (hN.mpr h)]
    · intro h1 h2 h3 h4
      rw [if_neg (fun h => h1 (hC.mp h)), if_neg (fun h => h2 (hF.mp h)),
        if_neg (fun h => h3 (hS.mp h)), if_neg (fun h => h4 (hN.mp h))]

/-- Witness for C23: the manufacturer `Canon Inc.` with the opcode 0x9101 at
index 1 of two supported operations gives EOS. -/
theorem ptp_device_type_spec_witness :
    ptp_device_type eosEngine = PtpDevType.PTP_DEV_EOS :=
  ((ptp_device_type_spec eosEngine).2
    { manufacturer := literal "Canon Inc." ++ [0, 5]
      ops_supported := [0x1001, 0x9101]
      ops_supported_length := 2 } rfl).1.mpr ⟨by decide, 1, by decide, by decide⟩

/-! ## C24: the hold count of the mutex across `ptp_send` -/

theorem ptp_send_cmd_mutex (r : PtpRuntime) (cmd : PtpCommand) (h : Nat)
    (hm : r.mutex = some h) :
    (ptp_send_cmd r cmd).r.mutex = some (h + 1) ∧
      (ptp_send_cmd r cmd).r.caller_unlocks_mutex = r.caller_unlocks_mutex := by
  unfold ptp_send_cmd ptp_new_cmd_packet ptp_bulk_packet ptp_mutex_lock
  rw [hm]
  exact ⟨rfl, rfl⟩

theorem ptp_send_received_mutex (r : PtpRuntime) (tr : Transport) (cmd : PtpCommand) (h : Nat)
    (hm : r.mutex = some h) :
    (ptp_send_received r tr cmd).r.mutex = some (h + 1) ∧
      (ptp_send_received r tr cmd).r.caller_unlocks_mutex = r.caller_unlocks_mutex := by
  have hf := ptp_recieve_frame (ptp_send_cmd r cmd).r (ptp_send_written r tr cmd).tr
  unfold SameButData at hf
  unfold ptp_send_received
  rw [hf]
  exact ptp_send_cmd_mutex r cmd h hm

theorem unlock_held (r : PtpRuntime) (h : Nat) (hm : r.mutex = some (h + 1)) :
    (ptp_mutex_unlock r).mutex = some h := by
  unfold ptp_mutex_unlock
  rw [hm]
  rfl

/-- What `ptp_send` returns and what it leaves in the hold count, for an
engine whose mutex is initialised and held `h` times. -/
theorem ptp_send_mutex_cases (r : PtpRuntime) (tr : Transport) (cmd : PtpCommand) (h : Nat)
    (hm : r.mutex = some h) :
    ((ptp_send r tr cmd).ret = PTP_IO_ERR ∧ (ptp_send r tr cmd).r.mutex = some h) ∨
    (((ptp_send r tr cmd).ret = 0 ∨ (ptp_send r tr cmd).ret = PTP_CHECK_CODE) ∧
      (ptp_send r tr cmd).r.mutex =
        some (if r.caller_unlocks_mutex = true then h + 1 else h)) := by
  obtain ⟨hc1, _⟩ := ptp_send_cmd_mutex r cmd h hm
  obtain ⟨hv1, hv2⟩ := ptp_send_received_mutex r tr cmd h hm
  have hfin : ∀ q : PtpRuntime, q.mutex = some (h + 1) →
      q.caller_unlocks_mutex = r.caller_unlocks_mutex →
      (if !q.caller_unlocks_mutex then ptp_mutex_unlock q else q).mutex =
        some (if r.caller_unlocks_mutex = true then h + 1 else h) := by
    intro q hq1 hq2
    rw [hq2]
    cases r.caller_unlocks_mutex
    · exact unlock_held q h hq1
    · exact hq1
  rw [ptp_send_eq]
  by_cases h1 : (ptp_send_written r tr cmd).ret ≠ (ptp_send_cmd r cmd).ret
  · rw [if_pos h1]
    left
    exact ⟨rfl, unlock_held _ h hc1⟩
  · rw [if_neg h1]
    by_cases h2 : (ptp_send_received r tr cmd).ret < 0
    · rw [if_pos h2]
      left
      exact ⟨rfl, unlock_held _ h hv1⟩
    · rw [if_neg h2]
      right
      lift_lets
      intro src r3
      have h31 : r3.mutex = some (h + 1) := hv1
      have h32 : r3.caller_unlocks_mutex = r.caller_unlocks_mutex := hv2
      clear_value r3
      by_cases h3 : ptp_get_return_code r3 = (PTP_RC_OK : Int)
      · rw [if_pos h3]
        exact ⟨Or.inl rfl, hfin r3 h31 h32⟩
      · rw [if_neg h3]
        exact ⟨Or.inr rfl, hfin r3 h31 h32⟩

/-- C24, the claim as stated fails: with `caller_unlocks_mutex` set and a
response whose code is 0x2019, `ptp_send` reports CHECK_CODE and the hold
count, 0 before the call, is 1 after it. -/
theorem ptp_send_check_code_keeps_lock :
    callerUnlocksEngine.mutex = some 0 ∧
    (ptp_send callerUnlocksEngine (scriptedTransport [12] [busyResponse]) getInfoCmd).ret =
      PTP_CHECK_CODE ∧
    (ptp_send callerUnlocksEngine (scriptedTransport [12] [busyResponse]) getInfoCmd).r.mutex =
      some 1 := by
  decide

/-- C24, amended: for an engine whose mutex is initialised and held `h` times,
the hold count after `ptp_send` is `h + 1` exactly when `caller_unlocks_mutex`
is set and the call reports success or CHECK_CODE; on every other exit (an I/O
error, or any result with the flag not set) the hold count is `h` again. -/
theorem ptp_send_hold_count (r : PtpRuntime) (tr : Transport) (cmd : PtpCommand) (h : Nat)
    (hm : r.mutex = some h) :
    ((ptp_send r tr cmd).r.mutex = some (h + 1) ↔
      r.caller_unlocks_mutex = true ∧
        ((ptp_send r tr cmd).ret = 0 ∨ (ptp_send r tr cmd).ret = PTP_CHECK_CODE)) ∧
    (¬ (r.caller_unlocks_mutex = true ∧
        ((ptp_send r tr cmd).ret = 0 ∨ (ptp_send r tr cmd).ret = PTP_CHECK_CODE)) →
      (ptp_send r tr cmd).r.mutex = some h) := by
  have hio0 : PTP_IO_ERR ≠ 0 := by decide
  have hioc : PTP_IO_ERR ≠ PTP_CHECK_CODE := by decide
  rcases ptp_send_mutex_cases r tr cmd h hm with ⟨hret, hmx⟩ | ⟨hret, hmx⟩
  · refine ⟨⟨fun hh => ?_, fun hh => ?_⟩, fun _ => hmx⟩
    · rw [hmx] at hh
      simp at hh
    · rcases hh.2 with h0 | h0
      · exact absurd (hret.symm.trans h0) hio0
      · exact absurd (hret.symm.trans h0) hioc
  · by_cases hfl : r.caller_unlocks_mutex = true
    · rw [if_pos hfl] at hmx
      exact ⟨⟨fun _ => ⟨hfl, hret⟩, fun _ => hmx⟩, fun hn => absurd ⟨hfl, hret⟩ hn⟩
    · rw [if_neg hfl] at hmx
      refine ⟨⟨fun hh => ?_, fun hh => absurd hh.1 hfl⟩, fun _ => hmx⟩
      rw [hmx] at hh
      simp at hh

/-- Witness for C24: the engine with the flag set and a mutex nobody holds,
answered with the OK response, ends with the hold count 1. -/
theorem ptp_send_hold_count_witness :
    callerUnlocksEngine.mutex = some 0 ∧
    ((ptp_send callerUnlocksEngine (scriptedTransport [12] [okResponse]) getInfoCmd).r.mutex =
        some (0 + 1) ↔
      callerUnlocksEngine.caller_unlocks_mutex = true ∧
        ((ptp_send callerUnlocksEngine (scriptedTransport [12] [okResponse]) getInfoCmd).ret = 0 ∨
          (ptp_send callerUnlocksEngine (scriptedTransport [12] [okResponse]) getInfoCmd).ret =
            PTP_CHECK_CODE)) :=
  ⟨by decide,
    (ptp_send_hold_count callerUnlocksEngine (scriptedTransport [12] [okResponse]) getInfoCmd 0
      (by decide)).1⟩

/-! ## C25: the spans of the reads of the USB receive routine -/

theorem recv_fits (tr : Transport) (data : List Nat) (off : Nat) (size : Int)
    (hsz : 0 < size)
    (hpk : ∀ bytes : List Nat, ReadEvent.packet bytes ∈ tr.reads → (bytes.length : Int) ≤ size) :
    ∃ c : ReadCall, (ptp_recieve_bulk_packet tr data off size).tr.rlog = tr.rlog ++ [c] ∧
      c.off = off ∧ c.size = size ∧ c.ret ≤ size ∧
      ∀ bytes : List Nat,
        ReadEvent.packet bytes ∈ (ptp_recieve_bulk_packet tr data off size).tr.reads →
          (bytes.length : Int) ≤ size := by
  unfold ptp_recieve_bulk_packet
  cases hr : tr.reads with
  | nil =>
    refine ⟨_, rfl, rfl, rfl, ?_, ?_⟩
    · show (-1 : Int) ≤ size
      omega
    · intro bytes hb
      rw [hr] at hpk
      exact hpk bytes hb
  | cons e rest =>
    rw [hr] at hpk
    cases e with
    | fail e =>
      refine ⟨_, rfl, rfl, rfl, ?_, ?_⟩
      · show Int.negSucc e ≤ size
        have := Int.negSucc_lt_zero e
        omega
      · intro bytes hb
        exact hpk bytes (List.mem_cons_of_mem _ hb)
    | packet p =>
      refine ⟨_, rfl, rfl, rfl, ?_, ?_⟩
      · exact hpk p (List.mem_cons_self _ _)
      · intro bytes hb
        exact hpk bytes (List.mem_cons_of_mem _ hb)

theorem ptpusb_read_fits (r : PtpRuntime) (tr : Transport) (read : Int)
    (hmax : 0 < r.max_packet_size) (hread : 0 ≤ read)
    (hfit : read + r.max_packet_size ≤ r.data_length)
    (hpk : ∀ bytes : List Nat, ReadEvent.packet bytes ∈ tr.reads →
      (bytes.length : Int) ≤ r.max_packet_size) :
    ∃ c : ReadCall, (ptpusb_read r tr read).tr.rlog = tr.rlog ++ [c] ∧
      (c.size = r.max_packet_size ∧ (c.off : Int) + r.max_packet_size ≤ r.data_length ∧
        c.ret ≤ c.size) ∧
      ∀ bytes : List Nat, ReadEvent.packet bytes ∈ (ptpusb_read r tr read).tr.reads →
        (bytes.length : Int) ≤ r.max_packet_size := by
  rw [ptpusb_read_eq]
  obtain ⟨c, h1, h2, h3, h4, h5⟩ := recv_fits tr r.data read.toNat r.max_packet_size hmax hpk
  refine ⟨c, h1, ⟨h3, ?_, ?_⟩, h5⟩
  · rw [h2, Int.toNat_of_nonneg hread]
    exact hfit
  · rw [h3]
    exact h4

theorem ptpusb_loop_reads_fit : ∀ (n : Nat) (r : PtpRuntime) (tr : Transport) (read : Int),
    0 < r.max_packet_size → 0 ≤ read → read + r.max_packet_size ≤ r.data_length →
    (∀ bytes : List Nat, ReadEvent.packet bytes ∈ tr.reads →
      (bytes.length : Int) ≤ r.max_packet_size) →
    ∃ new : List ReadCall,
      (ptpusb_recieve_bulk_packets_loop n r tr read).tr.rlog = tr.rlog ++ new ∧
      ∀ c ∈ new, c.size = r.max_packet_size ∧
        (c.off : Int) + r.max_packet_size ≤ r.data_length ∧ c.ret ≤ c.size := by
  intro n
  induction n with
  | zero =>
    intro r tr read _ _ _ _
    exact ⟨[], by simp [ptpusb_recieve_bulk_packets_loop], by simp⟩
  | succ n ih =>
    intro r tr read hmax hread hfit hpk
    rw [ptpusb_recieve_bulk_packets_loop_succ]
    dsimp only
    obtain ⟨ca, hca, hPa, hka⟩ := ptpusb_read_fits r tr read hmax hread hfit hpk
    generalize ptpusb_read r tr read = qa at hca hka ⊢
    obtain ⟨cb, hcb, hPb, hkb⟩ := ptpusb_read_fits { r with data := qa.data } qa.tr read
      hmax hread hfit hka
    generalize ptpusb_read { r with data := qa.data } qa.tr read = qb at hcb hkb ⊢
    dsimp only at hPb hkb
    have hb : ∃ lb : List ReadCall,
        (if qa.ret < 0 ∧ read = 0 then qb else qa).tr.rlog = tr.rlog ++ lb ∧
        (∀ c ∈ lb, c.size = r.max_packet_size ∧
          (c.off : Int) + r.max_packet_size ≤ r.data_length ∧ c.ret ≤ c.size) ∧
        ∀ bytes : List Nat,
          ReadEvent.packet bytes ∈ (if qa.ret < 0 ∧ read = 0 then qb else qa).tr.reads →
            (bytes.length : Int) ≤ r.max_packet_size := by
      by_cases hc : qa.ret < 0 ∧ read = 0
      · rw [if_pos hc]
        refine ⟨[ca, cb], ?_, ?_, hkb⟩
        · rw [hcb, hca]; simp
        · intro c hcm
          simp only [List.mem_cons, List.mem_singleton, List.not_mem_nil, or_false] at hcm
          rcases hcm with e | e
          · rw [e]; exact hPa
          · rw [e]; exact hPb
      · rw [if_neg hc]
        refine ⟨[ca], hca, ?_, hka⟩
        intro c hcm
        rw [List.mem_singleton.mp hcm]
        exact hPa
    generalize (if qa.ret < 0 ∧ read = 0 then qb else qa) = b at hb ⊢
    obtain ⟨lb, hbl, hPl, hkl⟩ := hb
    have hone : ∀ c ∈ [ca], c.size = r.max_packet_size ∧
        (c.off : Int) + r.max_packet_size ≤ r.data_length ∧ c.ret ≤ c.size := by
      intro c hcm
      rw [List.mem_singleton.mp hcm]
      exact hPa
    split_ifs with h1 h2 h3 h4 h5
    · exact ⟨[ca], hca, hone⟩
    · exact ⟨lb, hbl, hPl⟩
    · exact ⟨lb, hbl, hPl⟩
    · obtain ⟨cc, hcc, hPc, _⟩ := ptpusb_read_fits { r with data := b.data } b.tr
        (read + b.ret) hmax (by omega) (by dsimp only; omega) hkl
      dsimp only at hPc
      refine ⟨lb ++ [cc], ?_, ?_⟩
      · show (ptpusb_read _ _ _).tr.rlog = _
        rw [hcc, hbl]; simp
      · intro c hcm
        rcases List.mem_append.mp hcm with e | e
        · exact hPl c e
        · rw [List.mem_singleton.mp e]; exact hPc
    · exact ⟨lb, hbl, hPl⟩
    · obtain ⟨new, hn1, hn2⟩ := ih { r with data := b.data } b.tr (read + b.ret) hmax
        (by omega) (by dsimp only; omega) hkl
      dsimp only at hn2
      refine ⟨lb ++ new, ?_, ?_⟩
      · rw [hn1, hbl]; simp
      · intro c hcm
        rcases List.mem_append.mp hcm with e | e
        · exact hPl c e
        · exact hn2 c e

/-- C25: for an engine with `0 < max_packet_size ≤ data_length` (the
capacity of the buffer) and a transport whose reads deliver at most
`max_packet_size` bytes, every read that `ptpusb_recieve_bulk_packets` issues
(the reads of the loop, the retry of the first read and the extra read after
a DATA container) asks for `max_packet_size` bytes at an offset `off` with
`off + max_packet_size ≤ data_length`, and delivers no more than it was asked
for. -/
theorem ptpusb_recieve_reads_in_bounds (r : PtpRuntime) (tr : Transport)
    (hmax : 0 < r.max_packet_size) (hcap : r.max_packet_size ≤ r.data_length)
    (hpk : ∀ bytes : List Nat, ReadEvent.packet bytes ∈ tr.reads →
      (bytes.length : Int) ≤ r.max_packet_size) :
    ∃ new : List ReadCall,
      (ptpusb_recieve_bulk_packets r tr).tr.rlog = tr.rlog ++ new ∧
      ∀ c ∈ new, c.size = r.max_packet_size ∧
        (c.off : Int) + r.max_packet_size ≤ r.data_length ∧ c.ret ≤ c.size :=
  ptpusb_loop_reads_fit (tr.reads.length + 1) r tr 0 hmax (le_refl 0) (by omega) hpk

/-- Witness for C25: the engine with 24 bytes and packets of 4 bytes, read
from a transport that delivers a full packet and then a short one. -/
theorem ptpusb_recieve_reads_in_bounds_witness :
    ∃ new : List ReadCall,
      (ptpusb_recieve_bulk_packets smallEngine
        (scriptedTransport [] [[1, 2, 3, 4], [5, 6]])).tr.rlog =
        (scriptedTransport [] [[1, 2, 3, 4], [5, 6]]).rlog ++ new ∧
      ∀ c ∈ new, c.size = smallEngine.max_packet_size ∧
        (c.off : Int) + smallEngine.max_packet_size ≤ smallEngine.data_length ∧
        c.ret ≤ c.size :=
  ptpusb_recieve_reads_in_bounds smallEngine (scriptedTransport [] [[1, 2, 3, 4], [5, 6]])
    (by decide) (by decide)
    (by
      intro bytes hb
      simp only [scriptedTransport, List.map_cons, List.map_nil, List.mem_cons,
        ReadEvent.packet.injEq, List.not_mem_nil, or_false] at hb
      rcases hb with e | e
      · rw [e]; decide
      · rw [e]; decide)

end Camlib
